import Mathlib

/-!
Verification of the mill structured-logging package (Go).

This file shallowly embeds the parts of the package that the claims are
about:

* the typed value model of data.go (`Data`, its constructors and accessors,
  with panics modelled as `Except.error`);
* the fixed-width timestamp rendering behind `TimeFormat` of textcodec.go
  (timestamps are civil-time records for a fixed UTC offset; byte strings
  are lists of byte values, compared as Go's bytes.Compare does);
* context propagation (`WithLogger`, `WithLogTag`, `WithLogTagPair`), with
  Go contexts modelled as chains of key/value frames looked up youngest
  first, as context.WithValue does;
* the text codec's entry rendering (textcodec.go) and the control-flow
  skeleton of the JSON codec's EncodeLogEntry (the marshal / encodeDone /
  writeReady / write sequence);
* the dispatch/ordering engine (`Log`, `Sync`, `globalLogSyncer`): a
  labelled small-step relation `Step` on `MillState`.  The write-ready
  channels form a chain of tokens identified by numbers: token 0 is the
  channel created and immediately closed by the package init function, and
  the call that swaps in token n+1 waits on token n before writing.  A
  fired (closed) token is recorded in the `fired` list.  The per-codec
  goroutines of one Log call are `Task`s walking through the phases
  start (still reading the caller data), encoded (encodeDone was called)
  and finished (the write happened, or the codec bailed out after an
  encode failure).  `time.Now()` is a monotone counter read inside the
  same critical section that swaps the tokens, exactly as in Log.
-/

/-! ## Typed value model (data.go) -/

/-- ValueType is a Go uint; invalid numeric values are representable, which
matters for the skip test in the text codec. -/
abbrev ValueType := Nat

def ValueTypeUnknown : ValueType := 0

def ValueTypeString : ValueType := 1

def ValueTypeInt64 : ValueType := 2

def ValueTypeUint64 : ValueType := 3

def ValueTypeFloat64 : ValueType := 4

def ValueTypeAny : ValueType := 5

def valueTypeMaxValue : ValueType := ValueTypeAny

/-- Rendering of a ValueType produced by the stringer-generated String
method, as used by the panic message of checkType. -/
def valueTypeString (v : ValueType) : String :=
  if v = 0 then "ValueTypeUnknown"
  else if v = 1 then "ValueTypeString"
  else if v = 2 then "ValueTypeInt64"
  else if v = 3 then "ValueTypeUint64"
  else if v = 4 then "ValueTypeFloat64"
  else if v = 5 then "ValueTypeAny"
  else "ValueType(" ++ toString v ++ ")"

/-- Data mirrors the struct of data.go.  Numeric payloads live in the
uniform 64-bit field numBits (a Nat below 2^64 for well-formed values).
A float64 is represented by its IEEE-754 bit pattern: math.Float64bits
and math.Float64frombits are mutually inverse bijections between float64
values and their bit patterns, so in this bit-level representation both
are the identity.  A boxed any value is represented by the text that
fmt would print for it, which is all the embedded codecs observe. -/
structure Data where
  name : String
  valueType : ValueType
  string : String
  numBits : Nat
  any : String
deriving DecidableEq

/-- Two's-complement conversion performed by Go's uint64(value) on an
int64 value. -/
def toUint64 (i : Int) : Nat := (i % 2 ^ 64).toNat

/-- Two's-complement conversion performed by Go's int64(d.numBits). -/
def toInt64 (n : Nat) : Int :=
  if n < 2 ^ 63 then (n : Int) else (n : Int) - 2 ^ 64

/-- String returns a Data recording a string (constructor String of
data.go). -/
def millString (name : String) (value : String) : Data :=
  { name := name, valueType := ValueTypeString, string := value, numBits := 0, any := "" }

/-- Int64 returns a Data recording an int64; the payload is stored as
uint64(value). -/
def millInt64 (name : String) (value : Int) : Data :=
  { name := name, valueType := ValueTypeInt64, string := "", numBits := toUint64 value, any := "" }

/-- Uint64 returns a Data recording a uint64. -/
def millUint64 (name : String) (value : Nat) : Data :=
  { name := name, valueType := ValueTypeUint64, string := "", numBits := value, any := "" }

/-- Float64 returns a Data recording a float64; the payload is stored as
math.Float64bits(value), i.e. the bit pattern itself in this embedding. -/
def millFloat64 (name : String) (valueBits : Nat) : Data :=
  { name := name, valueType := ValueTypeFloat64, string := "", numBits := valueBits, any := "" }

/-- Any returns a Data boxing an arbitrary value, represented here by its
printed form. -/
def millAny (name : String) (value : String) : Data :=
  { name := name, valueType := ValueTypeAny, string := "", numBits := 0, any := value }

/-- Alias naming the panic-message strings produced by checkType; also
keeps the accessor signatures below free of the Data namespace. -/
abbrev PanicMsg := String

/-- Alias for the string payload type, usable inside the Data namespace. -/
abbrev StrVal := String

/-- Panic message raised by checkType of data.go on a kind mismatch. -/
def typeMismatchMsg (hv wv : ValueType) : String :=
  "value type mismatch: " ++ valueTypeString hv ++ " != " ++ valueTypeString wv

/-- checkType of data.go; the panic is modelled as an Except.error carrying
the panic message. -/
def checkType (hv wv : ValueType) : Except String Unit :=
  if hv ≠ wv then Except.error (typeMismatchMsg hv wv) else Except.ok ()

/-- Accessor Data.String of data.go: panics unless the Data describes a
string. -/
def Data.String (d : Data) : Except PanicMsg StrVal :=
  match checkType d.valueType ValueTypeString with
  | Except.error e => Except.error e
  | Except.ok _ => Except.ok d.string

/-- Accessor Data.Int64 of data.go: panics unless the Data describes an
int64. -/
def Data.Int64 (d : Data) : Except PanicMsg Int :=
  match checkType d.valueType ValueTypeInt64 with
  | Except.error e => Except.error e
  | Except.ok _ => Except.ok (toInt64 d.numBits)

/-- Accessor Data.Uint64 of data.go: panics unless the Data describes a
uint64. -/
def Data.Uint64 (d : Data) : Except PanicMsg Nat :=
  match checkType d.valueType ValueTypeUint64 with
  | Except.error e => Except.error e
  | Except.ok _ => Except.ok d.numBits

/-- Accessor Data.Float64 of data.go: panics unless the Data describes a
float64; returns math.Float64frombits(d.numBits), i.e. the bit pattern in
this embedding. -/
def Data.Float64 (d : Data) : Except PanicMsg Nat :=
  match checkType d.valueType ValueTypeFloat64 with
  | Except.error e => Except.error e
  | Except.ok _ => Except.ok d.numBits

/-! ## Timestamp rendering (textcodec.go)

TimeFormat renders fixed-width, zero-padded decimal fields.  A timestamp
is a civil-time record as displayed in one fixed UTC offset (the process
zone); for one fixed offset, chronological order of civil times is
lexicographic on the field tuple (year, month, day, hour, minute, second,
microsecond), which the mixed-radix linearisation `Timestamp.key` turns
into the usual order on Nat.  Rendered strings are lists of byte values,
compared by `bytesCompare` exactly as Go's bytes.Compare compares byte
slices. -/

/-- Time format constant of textcodec.go. -/
def TimeFormat : String := "2006-01-02 15:04:05.000000-0700"

structure Timestamp where
  year : Nat
  month : Nat
  day : Nat
  hour : Nat
  minute : Nat
  second : Nat
  micro : Nat
deriving DecidableEq

/-- Field bounds under which the fixed-width layout is faithful: each
field fits its zero-padded width (calendar-valid timestamps of years 0
to 9999 all satisfy this). -/
def Timestamp.InRange (t : Timestamp) : Prop :=
  t.year < 10000 ∧ t.month < 100 ∧ t.day < 100 ∧ t.hour < 100 ∧
    t.minute < 100 ∧ t.second < 100 ∧ t.micro < 1000000

instance : DecidablePred Timestamp.InRange := fun t => by
  unfold Timestamp.InRange
  infer_instance

/-- Mixed-radix linearisation of the civil field tuple; for a fixed UTC
offset, comparing keys is comparing chronological order. -/
def Timestamp.key (t : Timestamp) : Nat :=
  (((((t.year * 100 + t.month) * 100 + t.day) * 100 + t.hour) * 100 + t.minute)
      * 100 + t.second) * 1000000 + t.micro

/-- Inverse of Timestamp.key on keys below 10^20, used to read the engine
clock as a civil timestamp. -/
def decodeKey (k : Nat) : Timestamp :=
  { year := k / 10 ^ 16
    month := k / 10 ^ 14 % 100
    day := k / 10 ^ 12 % 100
    hour := k / 10 ^ 10 % 100
    minute := k / 10 ^ 8 % 100
    second := k / 10 ^ 6 % 100
    micro := k % 10 ^ 6 }

/-- Fixed-width zero-padded decimal digits of n, most significant first,
as byte values; this is how every numeric field of TimeFormat is laid
out. -/
def padDigits : Nat → Nat → List Nat
  | 0, _ => []
  | w + 1, n => (48 + n / 10 ^ w) :: padDigits w (n % 10 ^ w)

/-- Go's bytes.Compare on byte slices. -/
def bytesCompare : List Nat → List Nat → Ordering
  | [], [] => Ordering.eq
  | [], _ :: _ => Ordering.lt
  | _ :: _, [] => Ordering.gt
  | a :: as, b :: bs =>
    if a < b then Ordering.lt else if b < a then Ordering.gt else bytesCompare as bs

/-- Three-way comparison on Nat, spelling out chronological comparison of
keys. -/
def natCmp (a b : Nat) : Ordering :=
  if a < b then Ordering.lt else if b < a then Ordering.gt else Ordering.eq

/-- Lexicographic combination of a list of field comparisons. -/
def lexNat : List (Nat × Nat) → Ordering
  | [] => Ordering.eq
  | (n, m) :: ps =>
    match natCmp n m with
    | Ordering.eq => lexNat ps
    | o => o

/-- Rendering of a timestamp by Format(TimeFormat): zero-padded year,
month, day, hour, minute, second and microsecond fields with the literal
separator bytes of the layout 2006-01-02 15:04:05.000000-0700, followed
by the numeric UTC offset, which is a fixed byte string for one process
zone and is passed in as `zone`. -/
def render (t : Timestamp) (zone : List Nat) : List Nat :=
  padDigits 4 t.year ++ 45 :: (padDigits 2 t.month ++ 45 :: (padDigits 2 t.day ++
    32 :: (padDigits 2 t.hour ++ 58 :: (padDigits 2 t.minute ++ 58 :: (padDigits 2 t.second ++
      46 :: (padDigits 6 t.micro ++ zone))))))

/-- Rendering of an engine clock value (a key) as the text codec renders
its timestamp. -/
def renderKey (k : Nat) (zone : List Nat) : List Nat :=
  render (decodeKey k) zone

/-! ## Context propagation (log.go) -/

/-- KV describes a log tag; an empty Value denotes a bare tag. -/
structure KV where
  key : String
  value : String
deriving DecidableEq

/-- A codec attached to a context.  For the ordering claims all that
matters about a codec instance is which underlying writer (sink) it
writes to; two codec instances wrapping the same writer carry the same
sink number. -/
structure Codec where
  sink : Nat
deriving DecidableEq

/-- The three context keys used by the package: loggerKey, contextTags
and the debugging key. -/
inductive CtxKey where
  | loggerKey
  | contextTags
  | debugKey
deriving DecidableEq

/-- Values stored under the context keys. -/
inductive CtxVal where
  | codecs (cs : List Codec)
  | tags (ts : List KV)
  | debug (enabled : Bool)
deriving DecidableEq

/-- A Go context: context.Background() or a context.WithValue frame. -/
inductive Ctx where
  | background
  | withValue (parent : Ctx) (key : CtxKey) (val : CtxVal)
deriving DecidableEq

/-- ctx.Value(key): youngest frame with the key wins. -/
def Ctx.value : Ctx → CtxKey → Option CtxVal
  | Ctx.background, _ => none
  | Ctx.withValue p k v, k2 => if k = k2 then some v else p.value k2

/-- withDebuggingInitialized of debug.go: attach a debug flag frame if the
context has none yet. -/
def withDebuggingInitialized (ctx : Ctx) : Ctx :=
  match ctx.value CtxKey.debugKey with
  | some _ => ctx
  | none => Ctx.withValue ctx CtxKey.debugKey (CtxVal.debug false)

/-- WithLogger creates a copy of the context with a logger attached
(appended to the loggers already attached, if any). -/
def WithLogger (ctx : Ctx) (c : Codec) : Ctx :=
  let ctx2 := withDebuggingInitialized ctx
  let loggers :=
    match ctx2.value CtxKey.loggerKey with
    | some (CtxVal.codecs cs) => cs
    | _ => []
  Ctx.withValue ctx2 CtxKey.loggerKey (CtxVal.codecs (loggers ++ [c]))

/-- WithLogTag creates a copy of the context with a bare logging tag
appended. -/
def WithLogTag (ctx : Ctx) (tag : String) : Ctx :=
  let tags :=
    match ctx.value CtxKey.contextTags with
    | some (CtxVal.tags ts) => ts
    | _ => []
  Ctx.withValue ctx CtxKey.contextTags (CtxVal.tags (tags ++ [{ key := tag, value := "" }]))

/-- WithLogTagPair creates a copy of the context with a logging tag
key/value pair appended. -/
def WithLogTagPair (ctx : Ctx) (k v : String) : Ctx :=
  let tags :=
    match ctx.value CtxKey.contextTags with
    | some (CtxVal.tags ts) => ts
    | _ => []
  Ctx.withValue ctx CtxKey.contextTags (CtxVal.tags (tags ++ [{ key := k, value := v }]))

/-- The codec list Log reads from the context: none models a nil
ctx.Value(loggerKey) result, on which Log returns at once. -/
def loggersOf (ctx : Ctx) : Option (List Codec) :=
  match ctx.value CtxKey.loggerKey with
  | some (CtxVal.codecs cs) => some cs
  | _ => none

/-- The codec list of a context, defaulted to empty. -/
def codecList (ctx : Ctx) : List Codec := (loggersOf ctx).getD []

/-- The tag list Log reads from the context, defaulted to empty. -/
def tagsOf (ctx : Ctx) : List KV :=
  match ctx.value CtxKey.contextTags with
  | some (CtxVal.tags ts) => ts
  | _ => []

/-! ## Text codec rendering (textcodec.go) -/

/-- Abstraction of strconv.AppendFloat(buf, f, g-format, -1, 64): some
deterministic text for the float64 with the given bit pattern.  The
shortest-round-trip decimal formatting itself is floating-point territory
and is not modelled bit-exactly; no claim depends on its text. -/
def formatFloatG (bits : Nat) : String := "float64bits(" ++ toString bits ++ ")"

/-- One tag as the text codec prints it: the key, plus =value for a
non-empty value. -/
def renderTag (t : KV) : String :=
  if t.value = "" then t.key else t.key ++ "=" ++ t.value

/-- The tag loop of textCodec.EncodeLogEntry: tags joined by a comma and
space, with no trailing separator. -/
def renderTags : List KV → String
  | [] => ""
  | [t] => renderTag t
  | t :: ts => renderTag t ++ ", " ++ renderTags ts

/-- The value part written by the switch in the data loop of
textCodec.EncodeLogEntry. -/
def renderDataValue (d : Data) : String :=
  if d.valueType = ValueTypeString then d.string
  else if d.valueType = ValueTypeInt64 then toString (toInt64 d.numBits)
  else if d.valueType = ValueTypeUint64 then toString d.numBits
  else if d.valueType = ValueTypeFloat64 then formatFloatG d.numBits
  else if d.valueType = ValueTypeAny then d.any
  else ""

/-- The data loop of textCodec.EncodeLogEntry: an element whose type is
ValueTypeUnknown or beyond valueTypeMaxValue is skipped (the continue
statement); every other element appends a comma, space, name, equals sign
and its rendered value. -/
def renderData : List Data → String
  | [] => ""
  | d :: ds =>
    if d.valueType = ValueTypeUnknown ∨ valueTypeMaxValue < d.valueType then renderData ds
    else ", " ++ d.name ++ "=" ++ renderDataValue d ++ renderData ds

/-- The full entry assembled by textCodec.EncodeLogEntry before encodeDone
is signalled: timestamp, space, bracketed tag list, space, message, the
data fragments, newline.  The timestamp argument is the already formatted
t.Format(TimeFormat) string. -/
def textEncodeLogEntry (tstr : String) (tags : List KV) (message : String)
    (data : List Data) : String :=
  tstr ++ " [" ++ renderTags tags ++ "] " ++ message ++ renderData data ++ "\n"

/-! ## JSON codec control flow (jsoncodec.go) -/

/-- Externally visible actions of one jsonCodec.EncodeLogEntry run. -/
inductive CodecEvent where
  | encodeDone
  | awaitWriteReady
  | write
deriving DecidableEq

/-- Control-flow skeleton of jsonCodec.EncodeLogEntry: json.Marshal runs
first, encodeDone is called unconditionally right after it, and on a
marshal error the method returns before ever touching writeReady or the
writer; otherwise it blocks on writeReady and then writes. -/
def jsonEncodeLogEntry (marshalErr : Bool) : List CodecEvent :=
  let afterMarshal := [CodecEvent.encodeDone]
  if marshalErr then afterMarshal
  else afterMarshal ++ [CodecEvent.awaitWriteReady, CodecEvent.write]

/-! ## Dispatch/ordering engine (log.go) -/

/-- Phases of one codec goroutine spawned by Log: start (it may still
read the caller-supplied data), encoded (it has called encodeDone and
will never read the data again), finished (EncodeLogEntry returned and
the wrapper ran writesDone.Done(), either after writing or after bailing
out of a failed encode). -/
inductive Phase where
  | start
  | encoded
  | finished
deriving DecidableEq

/-- One codec goroutine of one Log call.  fails records whether this
codec's encode step fails for this call's payload (for the repository
codecs: json.Marshal failing); a failing task skips its write. -/
structure EncodeTask where
  sink : Nat
  fails : Bool
  phase : Phase
deriving DecidableEq

/-- The per-call state Log builds inside the globalLogSyncer critical
section: the captured timestamp, the write-ready token taken over from
the previous call (gate), the fresh token installed as pending (token),
the codec tasks, and whether Log has returned to its caller. -/
structure Call where
  timestamp : Nat
  gate : Nat
  token : Nat
  tasks : List EncodeTask
  returned : Bool
deriving DecidableEq

/-- One write that reached a sink: which sink, the index of the Log call
(in token-swap order) that produced it, and the call's timestamp. -/
structure Entry where
  sink : Nat
  call : Nat
  timestamp : Nat
deriving DecidableEq

/-- Global state: the pending token of globalLogSyncer, the set of fired
(closed) tokens, the wall clock, the Log calls in token-swap order, and
every write that has reached a sink, in the order the writes happened. -/
structure MillState where
  pending : Nat
  fired : List Nat
  now : Nat
  calls : List Call
  writes : List Entry
deriving DecidableEq

/-- State after the package init function: the initial writeReady channel
exists and is already closed. -/
def initState : MillState :=
  { pending := 0, fired := [0], now := 0, calls := [], writes := [] }

/-- The tasks Log spawns: one per attached codec, in attachment order,
each tagged with whether its encode will fail on this payload. -/
def mkTasks (ls : List Codec) (fl : List Bool) : List EncodeTask :=
  List.zipWith (fun c f => { sink := c.sink, fails := f, phase := Phase.start }) ls fl

/-- The critical section of Log: under the lock it reads the pending
token as its gate, installs a fresh token, and captures the timestamp,
then spawns the codec tasks. -/
def startCall (s : MillState) (ls : List Codec) (fl : List Bool) : MillState :=
  { s with
    pending := s.pending + 1
    calls := s.calls ++
      [{ timestamp := s.now, gate := s.pending, token := s.pending + 1,
         tasks := mkTasks ls fl, returned := false }] }

/-- State with task ti of call ci moved to phase ph; c and t name the
current call and task. -/
def updPhase (s : MillState) (ci ti : Nat) (c : Call) (t : EncodeTask) (ph : Phase) : MillState :=
  { s with calls := s.calls.set ci { c with tasks := c.tasks.set ti { t with phase := ph } } }

/-- State with an entry appended to the write log. -/
def pushWrite (s : MillState) (ci : Nat) (c : Call) (t : EncodeTask) : MillState :=
  { s with writes := s.writes ++ [{ sink := t.sink, call := ci, timestamp := c.timestamp }] }

/-- State with one more fired token. -/
def addFired (s : MillState) (k : Nat) : MillState :=
  { s with fired := s.fired ++ [k] }

/-- State with call ci marked returned. -/
def setReturned (s : MillState) (ci : Nat) (c : Call) : MillState :=
  { s with calls := s.calls.set ci { c with returned := true } }

/-- State with the clock advanced by d. -/
def tickState (s : MillState) (d : Nat) : MillState :=
  { s with now := s.now + d }

/-- Labels of the engine steps; log carries the context the caller logs
on and the per-codec encode-failure pattern of this call's payload. -/
inductive Label where
  | log (ctx : Ctx) (fl : List Bool)
  | encode (ci ti : Nat)
  | skip (ci ti : Nat)
  | write (ci ti : Nat)
  | fire (ci : Nat)
  | ret (ci : Nat)
  | tick (d : Nat)
deriving DecidableEq

/-- Interleaving semantics of Log, Sync and the codec goroutines.

logNop is the fast path of Log: a nil logger list means an immediate
return, touching nothing.  logStart is Log's critical section.  encode is
a codec goroutine finishing its serialisation of the caller data and
calling encodeDone.  skip is the early return of a codec whose encode
failed (it never reads writeReady).  write is a successful codec
blocking on its gate token and then writing; it can only happen once the
gate has fired.  fire is the background watcher of one call: when every
task of the call has finished, it closes the token the call installed.
ret is Log's encodesDone.Wait() unblocking: it requires every task to
have called encodeDone.  tick lets the wall clock advance. -/
inductive Step : MillState → Label → MillState → Prop where
  | logNop (s : MillState) (ctx : Ctx) (fl : List Bool)
      (hnil : loggersOf ctx = none) :
      Step s (Label.log ctx fl) s
  | logStart (s : MillState) (ctx : Ctx) (ls : List Codec) (fl : List Bool)
      (hls : loggersOf ctx = some ls) (hlen : fl.length = ls.length) :
      Step s (Label.log ctx fl) (startCall s ls fl)
  | encode (s : MillState) (ci ti : Nat) (c : Call) (t : EncodeTask)
      (hc : s.calls[ci]? = some c) (ht : c.tasks[ti]? = some t)
      (hp : t.phase = Phase.start) :
      Step s (Label.encode ci ti) (updPhase s ci ti c t Phase.encoded)
  | skip (s : MillState) (ci ti : Nat) (c : Call) (t : EncodeTask)
      (hc : s.calls[ci]? = some c) (ht : c.tasks[ti]? = some t)
      (hp : t.phase = Phase.encoded) (hf : t.fails = true) :
      Step s (Label.skip ci ti) (updPhase s ci ti c t Phase.finished)
  | write (s : MillState) (ci ti : Nat) (c : Call) (t : EncodeTask)
      (hc : s.calls[ci]? = some c) (ht : c.tasks[ti]? = some t)
      (hp : t.phase = Phase.encoded) (hf : t.fails = false)
      (hg : c.gate ∈ s.fired) :
      Step s (Label.write ci ti) (pushWrite (updPhase s ci ti c t Phase.finished) ci c t)
  | fire (s : MillState) (ci : Nat) (c : Call)
      (hc : s.calls[ci]? = some c) (hfin : ∀ t ∈ c.tasks, t.phase = Phase.finished)
      (hnf : c.token ∉ s.fired) :
      Step s (Label.fire ci) (addFired s c.token)
  | ret (s : MillState) (ci : Nat) (c : Call)
      (hc : s.calls[ci]? = some c) (henc : ∀ t ∈ c.tasks, t.phase ≠ Phase.start)
      (hr : c.returned = false) :
      Step s (Label.ret ci) (setReturned s ci c)
  | tick (s : MillState) (d : Nat) :
      Step s (Label.tick d) (tickState s d)

/-- States reachable from the post-init state. -/
inductive Reachable : MillState → Prop where
  | init : Reachable initState
  | step (s s2 : MillState) (l : Label) :
      Reachable s → Step s l s2 → Reachable s2

/-- Sync reads the pending token under the lock and returns once it has
fired; at a state where the pending token has fired, a Sync that started
now (or any earlier Sync) has returned. -/
def syncDone (s : MillState) : Prop := s.pending ∈ s.fired

/-- Every call has at least one codec whose encode succeeds.  This rules
out the degenerate calls whose every codec fails to encode; such a call
fires its token without ever waiting on its gate (see the corrected
claim C9). -/
def GoodCalls (s : MillState) : Prop :=
  ∀ (i : Nat) (c : Call), s.calls[i]? = some c →
    ∃ t : EncodeTask, t ∈ c.tasks ∧ t.fails = false

/-- Number of entries call i has put on sink k. -/
def wcount (s : MillState) (i k : Nat) : Nat :=
  (s.writes.filter (fun e => decide (e.call = i ∧ e.sink = k))).length

/-- Number of finished non-failing tasks of a call on sink k. -/
def tcount (c : Call) (k : Nat) : Nat :=
  (c.tasks.filter (fun t =>
    decide (t.sink = k ∧ t.phase = Phase.finished ∧ t.fails = false))).length

/-- The entries sink k has received, oldest first. -/
def entriesFor (s : MillState) (k : Nat) : List Entry :=
  s.writes.filter (fun e => decide (e.sink = k))

/-! ## Concrete scenarios used by witnesses and counterexamples -/

/-- A codec instance writing to sink 0. -/
def cdc0 : Codec := { sink := 0 }

/-- A context with one codec attached to the background context. -/
def ctx1 : Ctx := WithLogger Ctx.background cdc0

/-- A Log call that has encoded and returned while its write is still
pending. -/
def sW1 : MillState :=
  { pending := 1, fired := [0], now := 0
    calls := [{ timestamp := 0, gate := 0, token := 1,
                tasks := [{ sink := 0, fails := false, phase := Phase.encoded }],
                returned := true }]
    writes := [] }

/-- One successful Log call carried through to a fired token. -/
def sW2 : MillState :=
  { pending := 1, fired := [0, 1], now := 0
    calls := [{ timestamp := 0, gate := 0, token := 1,
                tasks := [{ sink := 0, fails := false, phase := Phase.finished }],
                returned := false }]
    writes := [{ sink := 0, call := 0, timestamp := 0 }] }

/-- Two Log calls with a clock advance between their token swaps. -/
def sW3 : MillState :=
  { pending := 2, fired := [0], now := 5
    calls := [{ timestamp := 0, gate := 0, token := 1,
                tasks := [{ sink := 0, fails := false, phase := Phase.start }],
                returned := false },
              { timestamp := 5, gate := 1, token := 2,
                tasks := [{ sink := 0, fails := false, phase := Phase.start }],
                returned := false }]
    writes := [] }

/-- Final state of the ordering-inversion scenario: call 0 succeeds but
its write is slow, call 1's only codec fails to encode so call 1's token
fires early, and call 2 then writes to sink 0 before call 0 does.  All
tokens have fired, so Sync has returned, and sink 0 holds the entries of
calls 2 and 0 in that inverted order. -/
def s9 : MillState :=
  { pending := 3, fired := [0, 2, 1, 3], now := 0
    calls := [{ timestamp := 0, gate := 0, token := 1,
                tasks := [{ sink := 0, fails := false, phase := Phase.finished }],
                returned := true },
              { timestamp := 0, gate := 1, token := 2,
                tasks := [{ sink := 0, fails := true, phase := Phase.finished }],
                returned := true },
              { timestamp := 0, gate := 2, token := 3,
                tasks := [{ sink := 0, fails := false, phase := Phase.finished }],
                returned := true }]
    writes := [{ sink := 0, call := 2, timestamp := 0 }, { sink := 0, call := 0, timestamp := 0 }] }

/-- Final state of the failure-tolerance scenario: call 0's only codec
fails to encode, yet call 0 returns, writes nothing, its token fires, and
call 1 afterwards writes normally and the whole chain completes. -/
def sA : MillState :=
  { pending := 2, fired := [0, 1, 2], now := 0
    calls := [{ timestamp := 0, gate := 0, token := 1,
                tasks := [{ sink := 0, fails := true, phase := Phase.finished }],
                returned := true },
              { timestamp := 0, gate := 1, token := 2,
                tasks := [{ sink := 0, fails := false, phase := Phase.finished }],
                returned := true }]
    writes := [{ sink := 0, call := 1, timestamp := 0 }] }

/-- Inductive invariant of the engine.  The conditioned components hold
under GoodCalls (no call consists solely of failing codecs); everything
else is unconditional. -/
structure EngineInv (s : MillState) : Prop where
  pend : s.pending = s.calls.length
  gate_eq : ∀ (i : Nat) (c : Call), s.calls[i]? = some c → c.gate = i
  token_eq : ∀ (i : Nat) (c : Call), s.calls[i]? = some c → c.token = i + 1
  ts_now : ∀ (i : Nat) (c : Call), s.calls[i]? = some c → c.timestamp ≤ s.now
  ts_mono : ∀ (i j : Nat) (ci cj : Call), i ≤ j → s.calls[i]? = some ci →
    s.calls[j]? = some cj → ci.timestamp ≤ cj.timestamp
  zero_fired : 0 ∈ s.fired
  fired_le : ∀ k ∈ s.fired, k ≤ s.calls.length
  fired_done : ∀ (i : Nat) (c : Call), s.calls[i]? = some c → c.token ∈ s.fired →
    ∀ t ∈ c.tasks, t.phase = Phase.finished
  fin_gate : ∀ (i : Nat) (c : Call), s.calls[i]? = some c → ∀ t ∈ c.tasks,
    t.phase = Phase.finished → t.fails = false → c.gate ∈ s.fired
  ret_enc : ∀ (i : Nat) (c : Call), s.calls[i]? = some c → c.returned = true →
    ∀ t ∈ c.tasks, t.phase ≠ Phase.start
  w_lt : ∀ e ∈ s.writes, e.call < s.calls.length
  w_ts : ∀ e ∈ s.writes, ∀ c : Call, s.calls[e.call]? = some c → e.timestamp = c.timestamp
  w_fired : ∀ e ∈ s.writes, e.call ∈ s.fired
  w_sorted : GoodCalls s →
    s.writes.Pairwise (fun e1 e2 => e1.sink = e2.sink → e1.call ≤ e2.call)
  closed : GoodCalls s → ∀ k : Nat, k + 1 ∈ s.fired → k ∈ s.fired
  counts : ∀ (i : Nat) (c : Call), s.calls[i]? = some c → ∀ k : Nat, wcount s i k = tcount c k

/-! # Theorems -/

/-! ## Context propagation: C4 -/

theorem value_wdi (ctx : Ctx) (k : CtxKey) (hk : ¬ CtxKey.debugKey = k) :
    (withDebuggingInitialized ctx).value k = ctx.value k := by
  rcases h2 : ctx.value CtxKey.debugKey with _ | v2 <;>
    simp [withDebuggingInitialized, h2, Ctx.value, hk]

theorem codecList_withLogger (ctx : Ctx) (c : Codec) :
    codecList (WithLogger ctx c) = codecList ctx ++ [c] := by
  unfold codecList loggersOf WithLogger
  rw [show (Ctx.withValue (withDebuggingInitialized ctx) CtxKey.loggerKey
        (CtxVal.codecs
          ((match (withDebuggingInitialized ctx).value CtxKey.loggerKey with
            | some (CtxVal.codecs cs) => cs
            | _ => []) ++ [c]))).value CtxKey.loggerKey
      = some (CtxVal.codecs
          ((match (withDebuggingInitialized ctx).value CtxKey.loggerKey with
            | some (CtxVal.codecs cs) => cs
            | _ => []) ++ [c])) from by simp [Ctx.value]]
  rw [value_wdi ctx CtxKey.loggerKey (by simp)]
  rcases h : ctx.value CtxKey.loggerKey with _ | v
  · simp
  · cases v <;> simp

theorem tagsOf_withLogger (ctx : Ctx) (c : Codec) :
    tagsOf (WithLogger ctx c) = tagsOf ctx := by
  unfold tagsOf WithLogger
  rw [show (Ctx.withValue (withDebuggingInitialized ctx) CtxKey.loggerKey
        (CtxVal.codecs
          ((match (withDebuggingInitialized ctx).value CtxKey.loggerKey with
            | some (CtxVal.codecs cs) => cs
            | _ => []) ++ [c]))).value CtxKey.contextTags
      = (withDebuggingInitialized ctx).value CtxKey.contextTags from by simp [Ctx.value]]
  rw [value_wdi ctx CtxKey.contextTags (by simp)]

theorem tagsOf_withLogTag (ctx : Ctx) (tag : String) :
    tagsOf (WithLogTag ctx tag) = tagsOf ctx ++ [{ key := tag, value := "" }] := by
  unfold tagsOf WithLogTag
  rcases h : ctx.value CtxKey.contextTags with _ | v
  · simp [Ctx.value, h]
  · cases v <;> simp [Ctx.value, h]

theorem codecList_withLogTag (ctx : Ctx) (tag : String) :
    codecList (WithLogTag ctx tag) = codecList ctx := by
  unfold codecList loggersOf WithLogTag
  simp [Ctx.value]

theorem tagsOf_withLogTagPair (ctx : Ctx) (k v : String) :
    tagsOf (WithLogTagPair ctx k v) = tagsOf ctx ++ [{ key := k, value := v }] := by
  unfold tagsOf WithLogTagPair
  rcases h : ctx.value CtxKey.contextTags with _ | w
  · simp [Ctx.value, h]
  · cases w <;> simp [Ctx.value, h]

theorem codecList_withLogTagPair (ctx : Ctx) (k v : String) :
    codecList (WithLogTagPair ctx k v) = codecList ctx := by
  unfold codecList loggersOf WithLogTagPair
  simp [Ctx.value]

/-- C4: each attach operation (WithLogger for codecs, WithLogTag and
WithLogTagPair for tags) yields a context whose codec or tag list is
exactly the parent's list with the one new element appended, and leaves
the other list untouched.  Contexts are immutable values in this
embedding, exactly as context.WithValue never mutates its parent: the
parent context's lists denote the same lists before and after any number
of child derivations, so deriving several children from one parent gives
each child the parent's list plus its own element. -/
theorem C4_attach_copy_append (ctx : Ctx) (c : Codec) (tag tk tv : String) :
    codecList (WithLogger ctx c) = codecList ctx ++ [c] ∧
    tagsOf (WithLogger ctx c) = tagsOf ctx ∧
    codecList (WithLogTag ctx tag) = codecList ctx ∧
    tagsOf (WithLogTag ctx tag) = tagsOf ctx ++ [{ key := tag, value := "" }] ∧
    codecList (WithLogTagPair ctx tk tv) = codecList ctx ∧
    tagsOf (WithLogTagPair ctx tk tv) = tagsOf ctx ++ [{ key := tk, value := tv }] :=
  ⟨codecList_withLogger ctx c, tagsOf_withLogger ctx c,
   codecList_withLogTag ctx tag, tagsOf_withLogTag ctx tag,
   codecList_withLogTagPair ctx tk tv, tagsOf_withLogTagPair ctx tk tv⟩

/-! ## Typed values: C7 and C8 -/

/-- C7: constructing a Data with each kind's constructor and reading it
back with the matching accessor returns the original value bit-for-bit.
int64 values round-trip through the two's-complement uint64 field, and a
float64 round-trips through its IEEE-754 bit pattern stored in numBits
(float64 values are represented by their bit patterns here, under which
math.Float64bits and math.Float64frombits are the identity). -/
theorem C7_round_trip (name s : String) (i : Int) (u b : Nat)
    (hi1 : -(2 ^ 63) ≤ i) (hi2 : i < 2 ^ 63) (hu : u < 2 ^ 64) (hb : b < 2 ^ 64) :
    (millString name s).String = Except.ok s ∧
    (millInt64 name i).Int64 = Except.ok i ∧
    (millUint64 name u).Uint64 = Except.ok u ∧
    (millFloat64 name b).Float64 = Except.ok b := by
  refine ⟨rfl, ?_, rfl, rfl⟩
  show Except.ok (toInt64 (toUint64 i)) = Except.ok i
  have : toInt64 (toUint64 i) = i := by
    simp only [toInt64, toUint64]
    split <;> omega
  rw [this]

theorem C7_round_trip_witness :
    (millString "k" "v").String = Except.ok "v" ∧
    (millInt64 "k" (-5)).Int64 = Except.ok (-5) ∧
    (millUint64 "k" 7).Uint64 = Except.ok 7 ∧
    (millFloat64 "k" 9).Float64 = Except.ok 9 :=
  C7_round_trip "k" "v" (-5) 7 9 (by decide) (by decide) (by decide) (by decide)

/-- C8: each kind-specific accessor checks the stored kind against its
expected kind; a mismatch fails fatally with the checkType panic message
naming the actual and the expected kind, and never coerces, while a
matching kind returns the stored payload normally. -/
theorem C8_accessor_kind_check (d : Data) :
    (d.String = if d.valueType = ValueTypeString then Except.ok d.string
      else Except.error (typeMismatchMsg d.valueType ValueTypeString)) ∧
    (d.Int64 = if d.valueType = ValueTypeInt64 then Except.ok (toInt64 d.numBits)
      else Except.error (typeMismatchMsg d.valueType ValueTypeInt64)) ∧
    (d.Uint64 = if d.valueType = ValueTypeUint64 then Except.ok d.numBits
      else Except.error (typeMismatchMsg d.valueType ValueTypeUint64)) ∧
    (d.Float64 = if d.valueType = ValueTypeFloat64 then Except.ok d.numBits
      else Except.error (typeMismatchMsg d.valueType ValueTypeFloat64)) := by
  refine ⟨?_, ?_, ?_, ?_⟩
  · by_cases h : d.valueType = ValueTypeString <;> simp [Data.String, checkType, h]
  · by_cases h : d.valueType = ValueTypeInt64 <;> simp [Data.Int64, checkType, h]
  · by_cases h : d.valueType = ValueTypeUint64 <;> simp [Data.Uint64, checkType, h]
  · by_cases h : d.valueType = ValueTypeFloat64 <;> simp [Data.Float64, checkType, h]

/-! ## Text codec: C10 -/

theorem renderData_skip (d : Data)
    (hbad : d.valueType = ValueTypeUnknown ∨ valueTypeMaxValue < d.valueType)
    (l1 l2 : List Data) : renderData (l1 ++ d :: l2) = renderData (l1 ++ l2) := by
  induction l1 with
  | nil =>
    show renderData (d :: l2) = renderData l2
    rw [renderData, if_pos hbad]
  | cons a l ih =>
    show renderData (a :: (l ++ d :: l2)) = renderData (a :: (l ++ l2))
    rw [renderData, renderData, ih]

/-- C10: the data loop of the text codec silently omits any element whose
kind is ValueTypeUnknown (the zero value of Data) or beyond the valid
kind range: the rendered entry is exactly the entry rendered without that
element, so the timestamp, tags, message and all remaining data elements
are rendered normally and nothing panics (the loop reads fields directly
and never goes through the panicking accessors). -/
theorem C10_unknown_kind_skipped (tstr : String) (tags : List KV) (message : String)
    (l1 l2 : List Data) (d : Data)
    (hbad : d.valueType = ValueTypeUnknown ∨ valueTypeMaxValue < d.valueType) :
    textEncodeLogEntry tstr tags message (l1 ++ d :: l2) =
      textEncodeLogEntry tstr tags message (l1 ++ l2) := by
  unfold textEncodeLogEntry
  rw [renderData_skip d hbad]

theorem C10_unknown_kind_skipped_witness :
    textEncodeLogEntry "2017-01-02 03:04:05.000000-0700" [{ key := "tg", value := "" }]
        "msg" [millInt64 "i" 3, { name := "z", valueType := 0, string := "", numBits := 0, any := "" },
               millString "s" "x"] =
      textEncodeLogEntry "2017-01-02 03:04:05.000000-0700" [{ key := "tg", value := "" }]
        "msg" [millInt64 "i" 3, millString "s" "x"] :=
  C10_unknown_kind_skipped "2017-01-02 03:04:05.000000-0700" [{ key := "tg", value := "" }]
    "msg" [millInt64 "i" 3] [millString "s" "x"]
    { name := "z", valueType := 0, string := "", numBits := 0, any := "" } (Or.inl rfl)

/-! ## Timestamp rendering: C6 -/

theorem padDigits_length (w : Nat) : ∀ n, (padDigits w n).length = w := by
  induction w with
  | zero => intro n; rfl
  | succ w ih => intro n; simp [padDigits, ih]

theorem bytesCompare_cons_same (a : Nat) (u v : List Nat) :
    bytesCompare (a :: u) (a :: v) = bytesCompare u v := by
  simp [bytesCompare]

theorem bytesCompare_append (x : List Nat) : ∀ (y u v : List Nat), x.length = y.length →
    bytesCompare (x ++ u) (y ++ v) =
      match bytesCompare x y with
      | Ordering.eq => bytesCompare u v
      | o => o := by
  induction x with
  | nil =>
    intro y u v h
    cases y with
    | nil => simp [bytesCompare]
    | cons b bs => simp at h
  | cons a as ih =>
    intro y u v h
    cases y with
    | nil => simp at h
    | cons b bs =>
      simp only [List.cons_append, bytesCompare]
      by_cases h1 : a < b
      · simp [h1]
      · by_cases h2 : b < a
        · simp [h1, h2]
        · simp only [if_neg h1, if_neg h2]
          exact ih bs u v (by simpa using h)

theorem natCmp_mul_add (B q1 q2 r1 r2 : Nat) (h1 : r1 < B) (h2 : r2 < B) :
    natCmp (q1 * B + r1) (q2 * B + r2) =
      match natCmp q1 q2 with
      | Ordering.eq => natCmp r1 r2
      | o => o := by
  rcases Nat.lt_trichotomy q1 q2 with h | h | h
  · have hm : (q1 + 1) * B ≤ q2 * B := Nat.mul_le_mul_right B h
    rw [Nat.succ_mul] at hm
    have hlt : q1 * B + r1 < q2 * B + r2 := by omega
    have e1 : natCmp q1 q2 = Ordering.lt := by simp [natCmp, h]
    have e2 : natCmp (q1 * B + r1) (q2 * B + r2) = Ordering.lt := by simp [natCmp, hlt]
    rw [e1, e2]
  · subst h
    rcases Nat.lt_trichotomy r1 r2 with h3 | h3 | h3
    · have hlt : q1 * B + r1 < q1 * B + r2 := by omega
      simp [natCmp, h3, hlt]
    · subst h3
      simp [natCmp]
    · have h4 : ¬ r1 < r2 := by omega
      have h5 : ¬ q1 * B + r1 < q1 * B + r2 := by omega
      have h6 : q1 * B + r2 < q1 * B + r1 := by omega
      simp [natCmp, h4, h5, h6, h3]
  · have hm : (q2 + 1) * B ≤ q1 * B := Nat.mul_le_mul_right B h
    rw [Nat.succ_mul] at hm
    have hgt : q2 * B + r2 < q1 * B + r1 := by omega
    have h4 : ¬ q1 * B + r1 < q2 * B + r2 := by omega
    have h5 : ¬ q1 < q2 := by omega
    have e1 : natCmp q1 q2 = Ordering.gt := by simp [natCmp, h5, h]
    have e2 : natCmp (q1 * B + r1) (q2 * B + r2) = Ordering.gt := by simp [natCmp, h4, hgt]
    rw [e1, e2]

theorem bytesCompare_padDigits (w : Nat) : ∀ n m, n < 10 ^ w → m < 10 ^ w →
    bytesCompare (padDigits w n) (padDigits w m) = natCmp n m := by
  induction w with
  | zero =>
    intro n m hn hm
    rw [Nat.pow_zero] at hn hm
    have hn0 : n = 0 := by omega
    have hm0 : m = 0 := by omega
    subst hn0; subst hm0
    rfl
  | succ w ih =>
    intro n m hn hm
    have hB : 0 < 10 ^ w := Nat.pos_pow_of_pos w (by norm_num)
    have hr1 : n % 10 ^ w < 10 ^ w := Nat.mod_lt _ hB
    have hr2 : m % 10 ^ w < 10 ^ w := Nat.mod_lt _ hB
    have e1 : n = n / 10 ^ w * 10 ^ w + n % 10 ^ w := by
      conv_lhs => rw [← Nat.div_add_mod n (10 ^ w)]
      ring
    have e2 : m = m / 10 ^ w * 10 ^ w + m % 10 ^ w := by
      conv_lhs => rw [← Nat.div_add_mod m (10 ^ w)]
      ring
    have key : natCmp n m =
        match natCmp (n / 10 ^ w) (m / 10 ^ w) with
        | Ordering.eq => natCmp (n % 10 ^ w) (m % 10 ^ w)
        | o => o := by
      conv_lhs => rw [e1, e2]
      exact natCmp_mul_add (10 ^ w) _ _ _ _ hr1 hr2
    rw [key]
    simp only [padDigits]
    rcases Nat.lt_trichotomy (n / 10 ^ w) (m / 10 ^ w) with h | h | h
    · have hd : 48 + n / 10 ^ w < 48 + m / 10 ^ w := by omega
      have hq : natCmp (n / 10 ^ w) (m / 10 ^ w) = Ordering.lt := by simp [natCmp, h]
      rw [hq]
      simp [bytesCompare, hd]
    · rw [h, bytesCompare_cons_same]
      have hq : natCmp (m / 10 ^ w) (m / 10 ^ w) = Ordering.eq := by simp [natCmp]
      rw [hq]
      exact ih _ _ hr1 hr2
    · have hd1 : ¬ 48 + n / 10 ^ w < 48 + m / 10 ^ w := by omega
      have hd2 : 48 + m / 10 ^ w < 48 + n / 10 ^ w := by omega
      have hnlt : ¬ n / 10 ^ w < m / 10 ^ w := by omega
      have hq : natCmp (n / 10 ^ w) (m / 10 ^ w) = Ordering.gt := by
        simp [natCmp, hnlt, h]
      rw [hq]
      simp [bytesCompare, hd1, hd2]

theorem cmp_pad_natCmp (w n m : Nat) (hn : n < 10 ^ w) (hm : m < 10 ^ w) (u v : List Nat) :
    bytesCompare (padDigits w n ++ u) (padDigits w m ++ v) =
      match natCmp n m with
      | Ordering.eq => bytesCompare u v
      | o => o := by
  rw [bytesCompare_append (padDigits w n) (padDigits w m) u v (by simp [padDigits_length]),
      bytesCompare_padDigits w n m hn hm]

theorem lexNat_snoc (ps : List (Nat × Nat)) (n m : Nat) :
    lexNat (ps ++ [(n, m)]) =
      match lexNat ps with
      | Ordering.eq => natCmp n m
      | o => o := by
  induction ps with
  | nil => rcases h : natCmp n m <;> simp [lexNat, h]
  | cons p ps ih =>
    rcases p with ⟨x, y⟩
    simp only [List.cons_append, lexNat]
    rcases h : natCmp x y <;> simp [h, ih]

theorem bytesCompare_refl (z : List Nat) : bytesCompare z z = Ordering.eq := by
  induction z with
  | nil => rfl
  | cons a as ih => rw [bytesCompare_cons_same]; exact ih

theorem bytesCompare_render_lex (a b : Timestamp) (z : List Nat)
    (ha : a.InRange) (hb : b.InRange) :
    bytesCompare (render a z) (render b z) =
      lexNat [(a.year, b.year), (a.month, b.month), (a.day, b.day), (a.hour, b.hour),
              (a.minute, b.minute), (a.second, b.second), (a.micro, b.micro)] := by
  obtain ⟨hy1, hmo1, hd1, hh1, hmi1, hs1, hus1⟩ := ha
  obtain ⟨hy2, hmo2, hd2, hh2, hmi2, hs2, hus2⟩ := hb
  have by1 : a.year < 10 ^ 4 := by norm_num; omega
  have by2 : b.year < 10 ^ 4 := by norm_num; omega
  have bmo1 : a.month < 10 ^ 2 := by norm_num; omega
  have bmo2 : b.month < 10 ^ 2 := by norm_num; omega
  have bd1 : a.day < 10 ^ 2 := by norm_num; omega
  have bd2 : b.day < 10 ^ 2 := by norm_num; omega
  have bh1 : a.hour < 10 ^ 2 := by norm_num; omega
  have bh2 : b.hour < 10 ^ 2 := by norm_num; omega
  have bmi1 : a.minute < 10 ^ 2 := by norm_num; omega
  have bmi2 : b.minute < 10 ^ 2 := by norm_num; omega
  have bs1 : a.second < 10 ^ 2 := by norm_num; omega
  have bs2 : b.second < 10 ^ 2 := by norm_num; omega
  have bus1 : a.micro < 10 ^ 6 := by norm_num; omega
  have bus2 : b.micro < 10 ^ 6 := by norm_num; omega
  unfold render
  rw [cmp_pad_natCmp 4 a.year b.year by1 by2]
  rcases hc1 : natCmp a.year b.year <;> simp only [lexNat, hc1]
  rw [bytesCompare_cons_same, cmp_pad_natCmp 2 a.month b.month bmo1 bmo2]
  rcases hc2 : natCmp a.month b.month <;> simp only [lexNat, hc2]
  rw [bytesCompare_cons_same, cmp_pad_natCmp 2 a.day b.day bd1 bd2]
  rcases hc3 : natCmp a.day b.day <;> simp only [lexNat, hc3]
  rw [bytesCompare_cons_same, cmp_pad_natCmp 2 a.hour b.hour bh1 bh2]
  rcases hc4 : natCmp a.hour b.hour <;> simp only [lexNat, hc4]
  rw [bytesCompare_cons_same, cmp_pad_natCmp 2 a.minute b.minute bmi1 bmi2]
  rcases hc5 : natCmp a.minute b.minute <;> simp only [lexNat, hc5]
  rw [bytesCompare_cons_same, cmp_pad_natCmp 2 a.second b.second bs1 bs2]
  rcases hc6 : natCmp a.second b.second <;> simp only [lexNat, hc6]
  rw [bytesCompare_cons_same, cmp_pad_natCmp 6 a.micro b.micro bus1 bus2]
  rcases hc7 : natCmp a.micro b.micro <;> simp only [lexNat, hc7]
  exact bytesCompare_refl z

theorem key_lex (a b : Timestamp) (ha : a.InRange) (hb : b.InRange) :
    natCmp a.key b.key =
      lexNat [(a.year, b.year), (a.month, b.month), (a.day, b.day), (a.hour, b.hour),
              (a.minute, b.minute), (a.second, b.second), (a.micro, b.micro)] := by
  obtain ⟨hy1, hmo1, hd1, hh1, hmi1, hs1, hus1⟩ := ha
  obtain ⟨hy2, hmo2, hd2, hh2, hmi2, hs2, hus2⟩ := hb
  have h1 : natCmp a.year b.year = lexNat [(a.year, b.year)] := by
    rcases h : natCmp a.year b.year <;> simp [lexNat, h]
  have h2 : natCmp (a.year * 100 + a.month) (b.year * 100 + b.month) =
      lexNat [(a.year, b.year), (a.month, b.month)] := by
    rw [natCmp_mul_add 100 _ _ _ _ hmo1 hmo2, h1,
      show ([(a.year, b.year), (a.month, b.month)] : List (Nat × Nat)) =
        [(a.year, b.year)] ++ [(a.month, b.month)] from rfl, lexNat_snoc]
  have h3 : natCmp ((a.year * 100 + a.month) * 100 + a.day)
      ((b.year * 100 + b.month) * 100 + b.day) =
      lexNat [(a.year, b.year), (a.month, b.month), (a.day, b.day)] := by
    rw [natCmp_mul_add 100 _ _ _ _ hd1 hd2, h2,
      show ([(a.year, b.year), (a.month, b.month), (a.day, b.day)] : List (Nat × Nat)) =
        [(a.year, b.year), (a.month, b.month)] ++ [(a.day, b.day)] from rfl, lexNat_snoc]
  have h4 : natCmp (((a.year * 100 + a.month) * 100 + a.day) * 100 + a.hour)
      (((b.year * 100 + b.month) * 100 + b.day) * 100 + b.hour) =
      lexNat [(a.year, b.year), (a.month, b.month), (a.day, b.day), (a.hour, b.hour)] := by
    rw [natCmp_mul_add 100 _ _ _ _ hh1 hh2, h3,
      show ([(a.year, b.year), (a.month, b.month), (a.day, b.day), (a.hour, b.hour)] :
          List (Nat × Nat)) =
        [(a.year, b.year), (a.month, b.month), (a.day, b.day)] ++ [(a.hour, b.hour)] from rfl,
      lexNat_snoc]
  have h5 : natCmp ((((a.year * 100 + a.month) * 100 + a.day) * 100 + a.hour) * 100 + a.minute)
      ((((b.year * 100 + b.month) * 100 + b.day) * 100 + b.hour) * 100 + b.minute) =
      lexNat [(a.year, b.year), (a.month, b.month), (a.day, b.day), (a.hour, b.hour),
              (a.minute, b.minute)] := by
    rw [natCmp_mul_add 100 _ _ _ _ hmi1 hmi2, h4,
      show ([(a.year, b.year), (a.month, b.month), (a.day, b.day), (a.hour, b.hour),
              (a.minute, b.minute)] : List (Nat × Nat)) =
        [(a.year, b.year), (a.month, b.month), (a.day, b.day), (a.hour, b.hour)] ++
          [(a.minute, b.minute)] from rfl, lexNat_snoc]
  have h6 : natCmp
      (((((a.year * 100 + a.month) * 100 + a.day) * 100 + a.hour) * 100 + a.minute) * 100
        + a.second)
      (((((b.year * 100 + b.month) * 100 + b.day) * 100 + b.hour) * 100 + b.minute) * 100
        + b.second) =
      lexNat [(a.year, b.year), (a.month, b.month), (a.day, b.day), (a.hour, b.hour),
              (a.minute, b.minute), (a.second, b.second)] := by
    rw [natCmp_mul_add 100 _ _ _ _ hs1 hs2, h5,
      show ([(a.year, b.year), (a.month, b.month), (a.day, b.day), (a.hour, b.hour),
              (a.minute, b.minute), (a.second, b.second)] : List (Nat × Nat)) =
        [(a.year, b.year), (a.month, b.month), (a.day, b.day), (a.hour, b.hour),
          (a.minute, b.minute)] ++ [(a.second, b.second)] from rfl, lexNat_snoc]
  show natCmp
      ((((((a.year * 100 + a.month) * 100 + a.day) * 100 + a.hour) * 100 + a.minute) * 100
        + a.second) * 1000000 + a.micro)
      ((((((b.year * 100 + b.month) * 100 + b.day) * 100 + b.hour) * 100 + b.minute) * 100
        + b.second) * 1000000 + b.micro) = _
  rw [natCmp_mul_add 1000000 _ _ _ _ hus1 hus2, h6,
    show ([(a.year, b.year), (a.month, b.month), (a.day, b.day), (a.hour, b.hour),
            (a.minute, b.minute), (a.second, b.second), (a.micro, b.micro)] :
        List (Nat × Nat)) =
      [(a.year, b.year), (a.month, b.month), (a.day, b.day), (a.hour, b.hour),
        (a.minute, b.minute), (a.second, b.second)] ++ [(a.micro, b.micro)] from rfl,
    lexNat_snoc]

theorem render_compare (a b : Timestamp) (z : List Nat) (ha : a.InRange) (hb : b.InRange) :
    bytesCompare (render a z) (render b z) = natCmp a.key b.key :=
  (bytesCompare_render_lex a b z ha hb).trans (key_lex a b ha hb).symm

/-- C6: for two timestamps whose fields fit the fixed-width layout
(years 0 to 9999), rendered with Format(TimeFormat) in the same fixed
numeric UTC offset, the byte-wise comparison of the rendered strings (as
bytes.Compare performs it) coincides with the chronological comparison
of the timestamps, i.e. with the comparison of their mixed-radix keys;
chronological order of civil times displayed in one fixed offset is
exactly this field-lexicographic order. -/
theorem C6_render_lexicographic (a b : Timestamp) (zone : List Nat)
    (ha : a.InRange) (hb : b.InRange) :
    bytesCompare (render a zone) (render b zone) = natCmp a.key b.key :=
  render_compare a b zone ha hb

theorem C6_render_lexicographic_witness :
    bytesCompare
        (render { year := 2017, month := 1, day := 2, hour := 3, minute := 4, second := 5,
                  micro := 6 } [45, 48, 55, 48, 48])
        (render { year := 2017, month := 1, day := 2, hour := 3, minute := 4, second := 7,
                  micro := 0 } [45, 48, 55, 48, 48]) =
      natCmp
        (Timestamp.key { year := 2017, month := 1, day := 2, hour := 3, minute := 4,
                         second := 5, micro := 6 })
        (Timestamp.key { year := 2017, month := 1, day := 2, hour := 3, minute := 4,
                         second := 7, micro := 0 }) :=
  C6_render_lexicographic
    { year := 2017, month := 1, day := 2, hour := 3, minute := 4, second := 5, micro := 6 }
    { year := 2017, month := 1, day := 2, hour := 3, minute := 4, second := 7, micro := 0 }
    [45, 48, 55, 48, 48] (by decide) (by decide)

theorem key_decodeKey (k : Nat) (hk : k < 10 ^ 20) : (decodeKey k).key = k := by
  simp only [decodeKey, Timestamp.key]
  omega

theorem decodeKey_inRange (k : Nat) (hk : k < 10 ^ 20) : (decodeKey k).InRange := by
  refine ⟨?_, ?_, ?_, ?_, ?_, ?_, ?_⟩ <;> simp only [decodeKey] <;> omega

theorem renderKey_mono (x y : Nat) (zone : List Nat) (hx : x < 10 ^ 20) (hy : y < 10 ^ 20)
    (hxy : x ≤ y) : bytesCompare (renderKey x zone) (renderKey y zone) ≠ Ordering.gt := by
  unfold renderKey
  rw [render_compare _ _ _ (decodeKey_inRange x hx) (decodeKey_inRange y hy),
    key_decodeKey x hx, key_decodeKey y hy]
  rcases Nat.lt_trichotomy x y with h | h | h
  · simp [natCmp, h]
  · subst h; simp [natCmp]
  · omega

/-! ## Engine invariant: list helpers -/

theorem getElem?_set_split {α : Type} (l : List α) (ci : Nat) (c2 : α) (hlt : ci < l.length)
    (i : Nat) : (l.set ci c2)[i]? = if i = ci then some c2 else l[i]? := by
  by_cases h : i = ci
  · subst h
    simp [List.getElem?_set_eq hlt]
  · rw [List.getElem?_set_ne (Ne.symm h), if_neg h]

theorem getElem?_append_split {α : Type} (l : List α) (a : α) (i : Nat) :
    (l ++ [a])[i]? = if i < l.length then l[i]? else if i = l.length then some a else none := by
  by_cases h1 : i < l.length
  · rw [List.getElem?_append_left h1, if_pos h1]
  · by_cases h2 : i = l.length
    · subst h2
      rw [List.getElem?_concat_length, if_neg h1, if_pos rfl]
    · have hge : (l ++ [a]).length ≤ i := by
        simp only [List.length_append, List.length_singleton]
        omega
      rw [List.getElem?_eq_none hge, if_neg h1, if_neg h2]

theorem lt_length_of_getElem? {α : Type} {l : List α} {i : Nat} {a : α}
    (h : l[i]? = some a) : i < l.length := by
  obtain ⟨hlt, _⟩ := List.getElem?_eq_some.mp h
  exact hlt

theorem filter_nil_of_false {α : Type} (p : α → Bool) :
    ∀ l : List α, (∀ a ∈ l, p a = false) → l.filter p = [] := by
  intro l
  induction l with
  | nil => intro _; rfl
  | cons x xs ih =>
    intro hall
    rw [List.filter_cons, hall x (List.mem_cons_self x xs)]
    exact ih fun a ha => hall a (List.mem_cons_of_mem x ha)

theorem length_filter_set {α : Type} (p : α → Bool) :
    ∀ (l : List α) (i : Nat) (a b : α), l[i]? = some a → p a = false →
      ((l.set i b).filter p).length =
        (l.filter p).length + (if p b then 1 else 0) := by
  intro l
  induction l with
  | nil => intro i a b h _; simp at h
  | cons x xs ih =>
    intro i a b h hpa
    cases i with
    | zero =>
      have hx : x = a := by simpa using h
      subst hx
      rcases hb : p b <;> simp [List.filter_cons, hb, hpa]
    | succ i =>
      have h2 : xs[i]? = some a := by simpa using h
      have := ih i a b h2 hpa
      rcases hx : p x <;> simp [List.set, List.filter_cons, hx, this] <;> omega

theorem mkTasks_phase (ls : List Codec) : ∀ (fl : List Bool) (t : EncodeTask),
    t ∈ mkTasks ls fl → t.phase = Phase.start := by
  induction ls with
  | nil => intro fl t h; simp [mkTasks] at h
  | cons c cs ih =>
    intro fl t h
    cases fl with
    | nil => simp [mkTasks] at h
    | cons f fs =>
      rcases (by simpa [mkTasks] using h : t = _ ∨ t ∈ mkTasks cs fs) with h1 | h1
      · rw [h1]
      · exact ih fs t h1

theorem fired_down (fired : List Nat) (hcl : ∀ k : Nat, k + 1 ∈ fired → k ∈ fired) :
    ∀ a, a ∈ fired → ∀ b, b ≤ a → b ∈ fired := by
  intro a
  induction a with
  | zero =>
    intro ha b hb
    have hb0 : b = 0 := by omega
    subst hb0
    exact ha
  | succ a ih =>
    intro ha b hb
    by_cases h : b = a + 1
    · subst h; exact ha
    · exact ih (hcl a ha) b (by omega)

/-! ## Engine invariant: preservation -/

theorem goodCalls_updPhase (s : MillState) (ci ti : Nat) (c : Call) (t : EncodeTask)
    (ph : Phase) (hc : s.calls[ci]? = some c) (ht : c.tasks[ti]? = some t)
    (hg : GoodCalls (updPhase s ci ti c t ph)) : GoodCalls s := by
  have hlt : ci < s.calls.length := lt_length_of_getElem? hc
  intro i c2 hc2
  by_cases hi : i = ci
  · subst hi
    have hcc : c = c2 := by
      rw [hc] at hc2
      exact Option.some.inj hc2
    obtain ⟨t2, ht2, hf2⟩ := hg i { c with tasks := c.tasks.set ti { t with phase := ph } }
      (by simp only [updPhase]; rw [getElem?_set_split s.calls i _ hlt i, if_pos rfl])
    rcases List.mem_or_eq_of_mem_set ht2 with h2 | h2
    · exact ⟨t2, hcc ▸ h2, hf2⟩
    · refine ⟨t, hcc ▸ List.getElem?_mem ht, ?_⟩
      rw [h2] at hf2
      exact hf2
  · refine hg i c2 ?_
    simp only [updPhase]
    rw [getElem?_set_split s.calls ci _ hlt i, if_neg hi]
    exact hc2

theorem goodCalls_setReturned (s : MillState) (ci : Nat) (c : Call)
    (hc : s.calls[ci]? = some c)
    (hg : GoodCalls (setReturned s ci c)) : GoodCalls s := by
  have hlt : ci < s.calls.length := lt_length_of_getElem? hc
  intro i c2 hc2
  by_cases hi : i = ci
  · subst hi
    have hcc : c = c2 := by
      rw [hc] at hc2
      exact Option.some.inj hc2
    obtain ⟨t2, ht2, hf2⟩ := hg i { c with returned := true }
      (by simp only [setReturned]; rw [getElem?_set_split s.calls i _ hlt i, if_pos rfl])
    exact ⟨t2, hcc ▸ ht2, hf2⟩
  · refine hg i c2 ?_
    simp only [setReturned]
    rw [getElem?_set_split s.calls ci _ hlt i, if_neg hi]
    exact hc2

theorem goodCalls_startCall (s : MillState) (ls : List Codec) (fl : List Bool)
    (hg : GoodCalls (startCall s ls fl)) : GoodCalls s := by
  intro i c2 hc2
  have hlt : i < s.calls.length := lt_length_of_getElem? hc2
  refine hg i c2 ?_
  simp only [startCall]
  rw [List.getElem?_append_left hlt]
  exact hc2

theorem inv_tick (s : MillState) (d : Nat) (h : EngineInv s) : EngineInv (tickState s d) := by
  refine ⟨h.pend, h.gate_eq, h.token_eq, ?_, h.ts_mono, h.zero_fired, h.fired_le,
    h.fired_done, h.fin_gate, h.ret_enc, h.w_lt, h.w_ts, h.w_fired, h.w_sorted, h.closed,
    h.counts⟩
  intro i c hc
  exact le_trans (h.ts_now i c hc) (Nat.le_add_right _ _)

theorem inv_setReturned (s : MillState) (ci : Nat) (c : Call)
    (hc : s.calls[ci]? = some c) (henc : ∀ t ∈ c.tasks, t.phase ≠ Phase.start)
    (h : EngineInv s) : EngineInv (setReturned s ci c) := by
  have hlt : ci < s.calls.length := lt_length_of_getElem? hc
  have hlook : ∀ i : Nat, (setReturned s ci c).calls[i]? =
      if i = ci then some { c with returned := true } else s.calls[i]? := by
    intro i
    simp only [setReturned]
    exact getElem?_set_split s.calls ci _ hlt i
  refine ⟨?_, ?_, ?_, ?_, ?_, h.zero_fired, ?_, ?_, ?_, ?_, ?_, ?_, h.w_fired, ?_, ?_, ?_⟩
  · simp only [setReturned, List.length_set]
    exact h.pend
  · intro i ck hck
    rw [hlook i] at hck
    by_cases hi : i = ci
    · rw [if_pos hi] at hck
      rw [← Option.some.inj hck, hi]
      exact h.gate_eq ci c hc
    · rw [if_neg hi] at hck
      exact h.gate_eq i ck hck
  · intro i ck hck
    rw [hlook i] at hck
    by_cases hi : i = ci
    · rw [if_pos hi] at hck
      rw [← Option.some.inj hck, hi]
      exact h.token_eq ci c hc
    · rw [if_neg hi] at hck
      exact h.token_eq i ck hck
  · intro i ck hck
    rw [hlook i] at hck
    by_cases hi : i = ci
    · rw [if_pos hi] at hck
      rw [← Option.some.inj hck]
      exact h.ts_now ci c hc
    · rw [if_neg hi] at hck
      exact h.ts_now i ck hck
  · intro i j ci2 cj2 hij hci2 hcj2
    rw [hlook i] at hci2
    rw [hlook j] at hcj2
    by_cases hi : i = ci <;> by_cases hj : j = ci
    · rw [if_pos hi] at hci2
      rw [if_pos hj] at hcj2
      rw [← Option.some.inj hci2, ← Option.some.inj hcj2]
    · rw [if_pos hi] at hci2
      rw [if_neg hj] at hcj2
      rw [← Option.some.inj hci2]
      exact h.ts_mono i j c cj2 hij (hi ▸ hc) hcj2
    · rw [if_neg hi] at hci2
      rw [if_pos hj] at hcj2
      rw [← Option.some.inj hcj2]
      exact h.ts_mono i j ci2 c hij hci2 (hj ▸ hc)
    · rw [if_neg hi] at hci2
      rw [if_neg hj] at hcj2
      exact h.ts_mono i j ci2 cj2 hij hci2 hcj2
  · intro k hk
    simp only [setReturned, List.length_set]
    exact h.fired_le k hk
  · intro i ck hck htok
    rw [hlook i] at hck
    by_cases hi : i = ci
    · rw [if_pos hi] at hck
      rw [← Option.some.inj hck] at htok ⊢
      exact h.fired_done ci c (hi ▸ hc) htok
    · rw [if_neg hi] at hck
      exact h.fired_done i ck hck htok
  · intro i ck hck t ht hph hf
    rw [hlook i] at hck
    by_cases hi : i = ci
    · rw [if_pos hi] at hck
      rw [← Option.some.inj hck] at ht ⊢
      exact h.fin_gate ci c (hi ▸ hc) t ht hph hf
    · rw [if_neg hi] at hck
      exact h.fin_gate i ck hck t ht hph hf
  · intro i ck hck hret t ht
    rw [hlook i] at hck
    by_cases hi : i = ci
    · rw [if_pos hi] at hck
      rw [← Option.some.inj hck] at ht
      exact henc t ht
    · rw [if_neg hi] at hck
      exact h.ret_enc i ck hck hret t ht
  · intro e he
    simp only [setReturned, List.length_set]
    exact h.w_lt e he
  · intro e he ck hck
    rw [hlook e.call] at hck
    by_cases hi : e.call = ci
    · rw [if_pos hi] at hck
      rw [← Option.some.inj hck]
      exact h.w_ts e he c (hi ▸ hc)
    · rw [if_neg hi] at hck
      exact h.w_ts e he ck hck
  · intro hg
    exact h.w_sorted (goodCalls_setReturned s ci c hc hg)
  · intro hg
    exact h.closed (goodCalls_setReturned s ci c hc hg)
  · intro i ck hck k
    rw [hlook i] at hck
    by_cases hi : i = ci
    · rw [if_pos hi] at hck
      rw [← Option.some.inj hck]
      have : tcount { c with returned := true } k = tcount c k := rfl
      rw [this, hi]
      exact h.counts ci c hc k
    · rw [if_neg hi] at hck
      exact h.counts i ck hck k

theorem inv_addFired (s : MillState) (ci : Nat) (c : Call)
    (hc : s.calls[ci]? = some c) (hfin : ∀ t ∈ c.tasks, t.phase = Phase.finished)
    (h : EngineInv s) : EngineInv (addFired s c.token) := by
  have hlt : ci < s.calls.length := lt_length_of_getElem? hc
  have htok : c.token = ci + 1 := h.token_eq ci c hc
  refine ⟨h.pend, h.gate_eq, h.token_eq, h.ts_now, h.ts_mono, ?_, ?_, ?_, ?_, h.ret_enc,
    h.w_lt, h.w_ts, ?_, ?_, ?_, h.counts⟩
  · exact List.mem_append_left _ h.zero_fired
  · intro k hk
    rcases List.mem_append.mp hk with hk | hk
    · exact h.fired_le k hk
    · have hkc : k = c.token := by simpa using hk
      subst hkc
      show c.token ≤ s.calls.length
      omega
  · intro i ck hck htk
    rcases List.mem_append.mp htk with htk | htk
    · exact h.fired_done i ck hck htk
    · have he : ck.token = c.token := by simpa using htk
      have hi : i = ci := by
        have := h.token_eq i ck hck
        omega
      subst hi
      have hck2 : s.calls[i]? = some ck := hck
      have hcke : ck = c := by
        rw [hc] at hck2
        exact (Option.some.inj hck2).symm
      subst hcke
      exact hfin
  · intro i ck hck t ht hph hf
    exact List.mem_append_left _ (h.fin_gate i ck hck t ht hph hf)
  · intro e he
    exact List.mem_append_left _ (h.w_fired e he)
  · intro hg
    exact h.w_sorted hg
  · intro hg k hk
    rcases List.mem_append.mp hk with hk | hk
    · exact List.mem_append_left _ (h.closed hg k hk)
    · have hkc : k + 1 = c.token := by simpa using hk
      have hkci : k = ci := by omega
      subst hkci
      obtain ⟨t0, ht0, hf0⟩ := hg k c hc
      have hgt : c.gate ∈ s.fired := h.fin_gate k c hc t0 ht0 (hfin t0 ht0) hf0
      have hgi : c.gate = k := h.gate_eq k c hc
      exact List.mem_append_left _ (hgi ▸ hgt)

theorem inv_startCall (s : MillState) (ls : List Codec) (fl : List Bool)
    (h : EngineInv s) : EngineInv (startCall s ls fl) := by
  have hp := h.pend
  have hlook : ∀ i : Nat, (startCall s ls fl).calls[i]? =
      if i < s.calls.length then s.calls[i]?
      else if i = s.calls.length then
        some { timestamp := s.now, gate := s.pending, token := s.pending + 1,
               tasks := mkTasks ls fl, returned := false }
      else none := by
    intro i
    simp only [startCall]
    exact getElem?_append_split s.calls _ i
  refine ⟨?_, ?_, ?_, ?_, ?_, h.zero_fired, ?_, ?_, ?_, ?_, ?_, ?_, h.w_fired, ?_, ?_, ?_⟩
  · simp only [startCall, List.length_append, List.length_singleton]
    omega
  · intro i ck hck
    rw [hlook i] at hck
    by_cases h1 : i < s.calls.length
    · rw [if_pos h1] at hck
      exact h.gate_eq i ck hck
    · rw [if_neg h1] at hck
      by_cases h2 : i = s.calls.length
      · rw [if_pos h2] at hck
        rw [← Option.some.inj hck]
        show s.pending = i
        omega
      · rw [if_neg h2] at hck
        exact absurd hck (by simp)
  · intro i ck hck
    rw [hlook i] at hck
    by_cases h1 : i < s.calls.length
    · rw [if_pos h1] at hck
      exact h.token_eq i ck hck
    · rw [if_neg h1] at hck
      by_cases h2 : i = s.calls.length
      · rw [if_pos h2] at hck
        rw [← Option.some.inj hck]
        show s.pending + 1 = i + 1
        omega
      · rw [if_neg h2] at hck
        exact absurd hck (by simp)
  · intro i ck hck
    rw [hlook i] at hck
    by_cases h1 : i < s.calls.length
    · rw [if_pos h1] at hck
      exact h.ts_now i ck hck
    · rw [if_neg h1] at hck
      by_cases h2 : i = s.calls.length
      · rw [if_pos h2] at hck
        rw [← Option.some.inj hck]
        exact le_rfl
      · rw [if_neg h2] at hck
        exact absurd hck (by simp)
  · intro i j ci2 cj2 hij hci2 hcj2
    rw [hlook i] at hci2
    rw [hlook j] at hcj2
    by_cases h1 : i < s.calls.length
    · rw [if_pos h1] at hci2
      by_cases h3 : j < s.calls.length
      · rw [if_pos h3] at hcj2
        exact h.ts_mono i j ci2 cj2 hij hci2 hcj2
      · rw [if_neg h3] at hcj2
        by_cases h4 : j = s.calls.length
        · rw [if_pos h4] at hcj2
          rw [← Option.some.inj hcj2]
          exact h.ts_now i ci2 hci2
        · rw [if_neg h4] at hcj2
          exact absurd hcj2 (by simp)
    · rw [if_neg h1] at hci2
      by_cases h2 : i = s.calls.length
      · rw [if_pos h2] at hci2
        by_cases h3 : j < s.calls.length
        · omega
        · by_cases h4 : j = s.calls.length
          · rw [if_neg h3, if_pos h4] at hcj2
            rw [← Option.some.inj hci2, ← Option.some.inj hcj2]
          · rw [if_neg h3, if_neg h4] at hcj2
            exact absurd hcj2 (by simp)
      · rw [if_neg h2] at hci2
        exact absurd hci2 (by simp)
  · intro k hk
    show k ≤ (s.calls ++ [_]).length
    have := h.fired_le k hk
    simp only [List.length_append, List.length_singleton]
    omega
  · intro i ck hck htk
    rw [hlook i] at hck
    by_cases h1 : i < s.calls.length
    · rw [if_pos h1] at hck
      exact h.fired_done i ck hck htk
    · rw [if_neg h1] at hck
      by_cases h2 : i = s.calls.length
      · rw [if_pos h2] at hck
        rw [← Option.some.inj hck] at htk
        have : s.pending + 1 ≤ s.calls.length := h.fired_le _ htk
        omega
      · rw [if_neg h2] at hck
        exact absurd hck (by simp)
  · intro i ck hck t ht hph hf
    rw [hlook i] at hck
    by_cases h1 : i < s.calls.length
    · rw [if_pos h1] at hck
      exact h.fin_gate i ck hck t ht hph hf
    · rw [if_neg h1] at hck
      by_cases h2 : i = s.calls.length
      · rw [if_pos h2] at hck
        rw [← Option.some.inj hck] at ht
        have := mkTasks_phase ls fl t ht
        rw [this] at hph
        exact absurd hph (by simp)
      · rw [if_neg h2] at hck
        exact absurd hck (by simp)
  · intro i ck hck hret t ht
    rw [hlook i] at hck
    by_cases h1 : i < s.calls.length
    · rw [if_pos h1] at hck
      exact h.ret_enc i ck hck hret t ht
    · rw [if_neg h1] at hck
      by_cases h2 : i = s.calls.length
      · rw [if_pos h2] at hck
        rw [← Option.some.inj hck] at hret
        exact absurd hret (by simp)
      · rw [if_neg h2] at hck
        exact absurd hck (by simp)
  · intro e he
    show e.call < (s.calls ++ [_]).length
    have := h.w_lt e he
    simp only [List.length_append, List.length_singleton]
    omega
  · intro e he ck hck
    rw [hlook e.call] at hck
    rw [if_pos (h.w_lt e he)] at hck
    exact h.w_ts e he ck hck
  · intro hg
    exact h.w_sorted (goodCalls_startCall s ls fl hg)
  · intro hg
    exact h.closed (goodCalls_startCall s ls fl hg)
  · intro i ck hck k
    rw [hlook i] at hck
    by_cases h1 : i < s.calls.length
    · rw [if_pos h1] at hck
      exact h.counts i ck hck k
    · rw [if_neg h1] at hck
      by_cases h2 : i = s.calls.length
      · rw [if_pos h2] at hck
        rw [← Option.some.inj hck]
        have hw : wcount (startCall s ls fl) i k = 0 := by
          unfold wcount
          rw [filter_nil_of_false _ _ ?_]
          · rfl
          · intro e he
            have hel := h.w_lt e he
            rw [decide_eq_false_iff_not]
            rintro ⟨he1, _⟩
            omega
        have htc : tcount { timestamp := s.now, gate := s.pending, token := s.pending + 1, tasks := mkTasks ls fl, returned := false } k = 0 := by
          unfold tcount
          rw [filter_nil_of_false _ _ ?_]
          · rfl
          · intro t ht
            have := mkTasks_phase ls fl t ht
            rw [decide_eq_false_iff_not]
            rintro ⟨_, ht2, _⟩
            rw [this] at ht2
            exact absurd ht2 (by simp)
        rw [hw, htc]
      · rw [if_neg h2] at hck
        exact absurd hck (by simp)

theorem inv_updPhase_encode (s : MillState) (ci ti : Nat) (c : Call) (t : EncodeTask)
    (hc : s.calls[ci]? = some c) (ht : c.tasks[ti]? = some t)
    (hp : t.phase = Phase.start) (h : EngineInv s) :
    EngineInv (updPhase s ci ti c t Phase.encoded) := by
  have hlt : ci < s.calls.length := lt_length_of_getElem? hc
  have htlt : ti < c.tasks.length := lt_length_of_getElem? ht
  have hlook : ∀ i : Nat, (updPhase s ci ti c t Phase.encoded).calls[i]? =
      if i = ci then some { c with tasks := c.tasks.set ti { t with phase := Phase.encoded } }
      else s.calls[i]? := by
    intro i
    simp only [updPhase]
    exact getElem?_set_split s.calls ci _ hlt i
  refine ⟨?_, ?_, ?_, ?_, ?_, h.zero_fired, ?_, ?_, ?_, ?_, ?_, ?_, h.w_fired, ?_, ?_, ?_⟩
  · simp only [updPhase, List.length_set]
    exact h.pend
  · intro i ck hck
    rw [hlook i] at hck
    by_cases hi : i = ci
    · rw [if_pos hi] at hck
      rw [← Option.some.inj hck, hi]
      exact h.gate_eq ci c hc
    · rw [if_neg hi] at hck
      exact h.gate_eq i ck hck
  · intro i ck hck
    rw [hlook i] at hck
    by_cases hi : i = ci
    · rw [if_pos hi] at hck
      rw [← Option.some.inj hck, hi]
      exact h.token_eq ci c hc
    · rw [if_neg hi] at hck
      exact h.token_eq i ck hck
  · intro i ck hck
    rw [hlook i] at hck
    by_cases hi : i = ci
    · rw [if_pos hi] at hck
      rw [← Option.some.inj hck]
      exact h.ts_now ci c hc
    · rw [if_neg hi] at hck
      exact h.ts_now i ck hck
  · intro i j ci2 cj2 hij hci2 hcj2
    rw [hlook i] at hci2
    rw [hlook j] at hcj2
    by_cases hi : i = ci <;> by_cases hj : j = ci
    · rw [if_pos hi] at hci2
      rw [if_pos hj] at hcj2
      rw [← Option.some.inj hci2, ← Option.some.inj hcj2]
    · rw [if_pos hi] at hci2
      rw [if_neg hj] at hcj2
      rw [← Option.some.inj hci2]
      exact h.ts_mono i j c cj2 hij (hi ▸ hc) hcj2
    · rw [if_neg hi] at hci2
      rw [if_pos hj] at hcj2
      rw [← Option.some.inj hcj2]
      exact h.ts_mono i j ci2 c hij hci2 (hj ▸ hc)
    · rw [if_neg hi] at hci2
      rw [if_neg hj] at hcj2
      exact h.ts_mono i j ci2 cj2 hij hci2 hcj2
  · intro k hk
    simp only [updPhase, List.length_set]
    exact h.fired_le k hk
  · intro i ck hck htk
    rw [hlook i] at hck
    by_cases hi : i = ci
    · rw [if_pos hi] at hck
      rw [← Option.some.inj hck] at htk
      have hfin := h.fired_done ci c (hi ▸ hc) htk t (List.getElem?_mem ht)
      rw [hp] at hfin
      exact absurd hfin (by simp)
    · rw [if_neg hi] at hck
      exact h.fired_done i ck hck htk
  · intro i ck hck t2 ht2 hph hf
    rw [hlook i] at hck
    by_cases hi : i = ci
    · rw [if_pos hi] at hck
      rw [← Option.some.inj hck] at ht2 ⊢
      rcases List.mem_or_eq_of_mem_set ht2 with h2 | h2
      · exact h.fin_gate i c (hi ▸ hc) t2 h2 hph hf
      · rw [h2] at hph
        exact absurd hph (by simp)
    · rw [if_neg hi] at hck
      exact h.fin_gate i ck hck t2 ht2 hph hf
  · intro i ck hck hret t2 ht2
    rw [hlook i] at hck
    by_cases hi : i = ci
    · rw [if_pos hi] at hck
      rw [← Option.some.inj hck] at hret ht2
      rcases List.mem_or_eq_of_mem_set ht2 with h2 | h2
      · exact h.ret_enc i c (hi ▸ hc) hret t2 h2
      · rw [h2]
        simp
    · rw [if_neg hi] at hck
      exact h.ret_enc i ck hck hret t2 ht2
  · intro e he
    simp only [updPhase, List.length_set]
    exact h.w_lt e he
  · intro e he ck hck
    rw [hlook e.call] at hck
    by_cases hi : e.call = ci
    · rw [if_pos hi] at hck
      rw [← Option.some.inj hck]
      exact h.w_ts e he c (hi ▸ hc)
    · rw [if_neg hi] at hck
      exact h.w_ts e he ck hck
  · intro hg
    exact h.w_sorted (goodCalls_updPhase s ci ti c t Phase.encoded hc ht hg)
  · intro hg
    exact h.closed (goodCalls_updPhase s ci ti c t Phase.encoded hc ht hg)
  · intro i ck hck k
    rw [hlook i] at hck
    by_cases hi : i = ci
    · rw [if_pos hi] at hck
      rw [← Option.some.inj hck]
      have hqt : (fun t2 : EncodeTask =>
          decide (t2.sink = k ∧ t2.phase = Phase.finished ∧ t2.fails = false)) t = false := by
        rw [decide_eq_false_iff_not]
        rintro ⟨_, h2, _⟩
        rw [hp] at h2
        exact absurd h2 (by simp)
      have hqt2 : (fun t2 : EncodeTask =>
          decide (t2.sink = k ∧ t2.phase = Phase.finished ∧ t2.fails = false))
          { t with phase := Phase.encoded } = false := by
        rw [decide_eq_false_iff_not]
        rintro ⟨_, h2, _⟩
        exact absurd h2 (by simp)
      have := length_filter_set
        (fun t2 : EncodeTask =>
          decide (t2.sink = k ∧ t2.phase = Phase.finished ∧ t2.fails = false))
        c.tasks ti t { t with phase := Phase.encoded } ht hqt
      unfold tcount
      rw [this, hqt2]
      have hcc := h.counts ci c hc k
      unfold tcount at hcc
      have hwc : wcount (updPhase s ci ti c t Phase.encoded) i k = wcount s i k := rfl
      rw [hwc, hi, hcc]
      simp
    · rw [if_neg hi] at hck
      exact h.counts i ck hck k

theorem inv_updPhase_skip (s : MillState) (ci ti : Nat) (c : Call) (t : EncodeTask)
    (hc : s.calls[ci]? = some c) (ht : c.tasks[ti]? = some t)
    (hp : t.phase = Phase.encoded) (hf : t.fails = true) (h : EngineInv s) :
    EngineInv (updPhase s ci ti c t Phase.finished) := by
  have hlt : ci < s.calls.length := lt_length_of_getElem? hc
  have hlook : ∀ i : Nat, (updPhase s ci ti c t Phase.finished).calls[i]? =
      if i = ci then some { c with tasks := c.tasks.set ti { t with phase := Phase.finished } }
      else s.calls[i]? := by
    intro i
    simp only [updPhase]
    exact getElem?_set_split s.calls ci _ hlt i
  refine ⟨?_, ?_, ?_, ?_, ?_, h.zero_fired, ?_, ?_, ?_, ?_, ?_, ?_, h.w_fired, ?_, ?_, ?_⟩
  · simp only [updPhase, List.length_set]
    exact h.pend
  · intro i ck hck
    rw [hlook i] at hck
    by_cases hi : i = ci
    · rw [if_pos hi] at hck
      rw [← Option.some.inj hck, hi]
      exact h.gate_eq ci c hc
    · rw [if_neg hi] at hck
      exact h.gate_eq i ck hck
  · intro i ck hck
    rw [hlook i] at hck
    by_cases hi : i = ci
    · rw [if_pos hi] at hck
      rw [← Option.some.inj hck, hi]
      exact h.token_eq ci c hc
    · rw [if_neg hi] at hck
      exact h.token_eq i ck hck
  · intro i ck hck
    rw [hlook i] at hck
    by_cases hi : i = ci
    · rw [if_pos hi] at hck
      rw [← Option.some.inj hck]
      exact h.ts_now ci c hc
    · rw [if_neg hi] at hck
      exact h.ts_now i ck hck
  · intro i j ci2 cj2 hij hci2 hcj2
    rw [hlook i] at hci2
    rw [hlook j] at hcj2
    by_cases hi : i = ci <;> by_cases hj : j = ci
    · rw [if_pos hi] at hci2
      rw [if_pos hj] at hcj2
      rw [← Option.some.inj hci2, ← Option.some.inj hcj2]
    · rw [if_pos hi] at hci2
      rw [if_neg hj] at hcj2
      rw [← Option.some.inj hci2]
      exact h.ts_mono i j c cj2 hij (hi ▸ hc) hcj2
    · rw [if_neg hi] at hci2
      rw [if_pos hj] at hcj2
      rw [← Option.some.inj hcj2]
      exact h.ts_mono i j ci2 c hij hci2 (hj ▸ hc)
    · rw [if_neg hi] at hci2
      rw [if_neg hj] at hcj2
      exact h.ts_mono i j ci2 cj2 hij hci2 hcj2
  · intro k hk
    simp only [updPhase, List.length_set]
    exact h.fired_le k hk
  · intro i ck hck htk
    rw [hlook i] at hck
    by_cases hi : i = ci
    · rw [if_pos hi] at hck
      rw [← Option.some.inj hck] at htk
      have hfin := h.fired_done ci c (hi ▸ hc) htk t (List.getElem?_mem ht)
      rw [hp] at hfin
      exact absurd hfin (by simp)
    · rw [if_neg hi] at hck
      exact h.fired_done i ck hck htk
  · intro i ck hck t2 ht2 hph hf2
    rw [hlook i] at hck
    by_cases hi : i = ci
    · rw [if_pos hi] at hck
      rw [← Option.some.inj hck] at ht2 ⊢
      rcases List.mem_or_eq_of_mem_set ht2 with h2 | h2
      · exact h.fin_gate i c (hi ▸ hc) t2 h2 hph hf2
      · have hff : t.fails = false := by
          rw [h2] at hf2
          exact hf2
        rw [hf] at hff
        exact absurd hff (by simp)
    · rw [if_neg hi] at hck
      exact h.fin_gate i ck hck t2 ht2 hph hf2
  · intro i ck hck hret t2 ht2
    rw [hlook i] at hck
    by_cases hi : i = ci
    · rw [if_pos hi] at hck
      rw [← Option.some.inj hck] at hret ht2
      rcases List.mem_or_eq_of_mem_set ht2 with h2 | h2
      · exact h.ret_enc i c (hi ▸ hc) hret t2 h2
      · rw [h2]
        simp
    · rw [if_neg hi] at hck
      exact h.ret_enc i ck hck hret t2 ht2
  · intro e he
    simp only [updPhase, List.length_set]
    exact h.w_lt e he
  · intro e he ck hck
    rw [hlook e.call] at hck
    by_cases hi : e.call = ci
    · rw [if_pos hi] at hck
      rw [← Option.some.inj hck]
      exact h.w_ts e he c (hi ▸ hc)
    · rw [if_neg hi] at hck
      exact h.w_ts e he ck hck
  · intro hg
    exact h.w_sorted (goodCalls_updPhase s ci ti c t Phase.finished hc ht hg)
  · intro hg
    exact h.closed (goodCalls_updPhase s ci ti c t Phase.finished hc ht hg)
  · intro i ck hck k
    rw [hlook i] at hck
    by_cases hi : i = ci
    · rw [if_pos hi] at hck
      rw [← Option.some.inj hck]
      have hqt : (fun t2 : EncodeTask =>
          decide (t2.sink = k ∧ t2.phase = Phase.finished ∧ t2.fails = false)) t = false := by
        rw [decide_eq_false_iff_not]
        rintro ⟨_, h2, _⟩
        rw [hp] at h2
        exact absurd h2 (by simp)
      have hqt2 : (fun t2 : EncodeTask =>
          decide (t2.sink = k ∧ t2.phase = Phase.finished ∧ t2.fails = false))
          { t with phase := Phase.finished } = false := by
        rw [decide_eq_false_iff_not]
        rintro ⟨_, _, h3⟩
        have h4 : t.fails = false := h3
        rw [hf] at h4
        exact absurd h4 (by simp)
      have hlfs := length_filter_set
        (fun t2 : EncodeTask =>
          decide (t2.sink = k ∧ t2.phase = Phase.finished ∧ t2.fails = false))
        c.tasks ti t { t with phase := Phase.finished } ht hqt
      unfold tcount
      rw [hlfs, hqt2]
      have hcc := h.counts ci c hc k
      unfold tcount at hcc
      have hwc : wcount (updPhase s ci ti c t Phase.finished) i k = wcount s i k := rfl
      rw [hwc, hi, hcc]
      simp
    · rw [if_neg hi] at hck
      exact h.counts i ck hck k

theorem inv_write_step (s : MillState) (ci ti : Nat) (c : Call) (t : EncodeTask)
    (hc : s.calls[ci]? = some c) (ht : c.tasks[ti]? = some t)
    (hp : t.phase = Phase.encoded) (hf : t.fails = false) (hg : c.gate ∈ s.fired)
    (h : EngineInv s) :
    EngineInv (pushWrite (updPhase s ci ti c t Phase.finished) ci c t) := by
  have hlt : ci < s.calls.length := lt_length_of_getElem? hc
  have hlook : ∀ i : Nat,
      (pushWrite (updPhase s ci ti c t Phase.finished) ci c t).calls[i]? =
      if i = ci then some { c with tasks := c.tasks.set ti { t with phase := Phase.finished } }
      else s.calls[i]? := by
    intro i
    simp only [pushWrite, updPhase]
    exact getElem?_set_split s.calls ci _ hlt i
  have hwrites : (pushWrite (updPhase s ci ti c t Phase.finished) ci c t).writes =
      s.writes ++ [{ sink := t.sink, call := ci, timestamp := c.timestamp }] := rfl
  refine ⟨?_, ?_, ?_, ?_, ?_, h.zero_fired, ?_, ?_, ?_, ?_, ?_, ?_, ?_, ?_, ?_, ?_⟩
  · simp only [pushWrite, updPhase, List.length_set]
    exact h.pend
  · intro i ck hck
    rw [hlook i] at hck
    by_cases hi : i = ci
    · rw [if_pos hi] at hck
      rw [← Option.some.inj hck, hi]
      exact h.gate_eq ci c hc
    · rw [if_neg hi] at hck
      exact h.gate_eq i ck hck
  · intro i ck hck
    rw [hlook i] at hck
    by_cases hi : i = ci
    · rw [if_pos hi] at hck
      rw [← Option.some.inj hck, hi]
      exact h.token_eq ci c hc
    · rw [if_neg hi] at hck
      exact h.token_eq i ck hck
  · intro i ck hck
    rw [hlook i] at hck
    by_cases hi : i = ci
    · rw [if_pos hi] at hck
      rw [← Option.some.inj hck]
      exact h.ts_now ci c hc
    · rw [if_neg hi] at hck
      exact h.ts_now i ck hck
  · intro i j ci2 cj2 hij hci2 hcj2
    rw [hlook i] at hci2
    rw [hlook j] at hcj2
    by_cases hi : i = ci <;> by_cases hj : j = ci
    · rw [if_pos hi] at hci2
      rw [if_pos hj] at hcj2
      rw [← Option.some.inj hci2, ← Option.some.inj hcj2]
    · rw [if_pos hi] at hci2
      rw [if_neg hj] at hcj2
      rw [← Option.some.inj hci2]
      exact h.ts_mono i j c cj2 hij (hi ▸ hc) hcj2
    · rw [if_neg hi] at hci2
      rw [if_pos hj] at hcj2
      rw [← Option.some.inj hcj2]
      exact h.ts_mono i j ci2 c hij hci2 (hj ▸ hc)
    · rw [if_neg hi] at hci2
      rw [if_neg hj] at hcj2
      exact h.ts_mono i j ci2 cj2 hij hci2 hcj2
  · intro k hk
    simp only [pushWrite, updPhase, List.length_set]
    exact h.fired_le k hk
  · intro i ck hck htk
    rw [hlook i] at hck
    by_cases hi : i = ci
    · rw [if_pos hi] at hck
      rw [← Option.some.inj hck] at htk
      have hfin := h.fired_done ci c (hi ▸ hc) htk t (List.getElem?_mem ht)
      rw [hp] at hfin
      exact absurd hfin (by simp)
    · rw [if_neg hi] at hck
      exact h.fired_done i ck hck htk
  · intro i ck hck t2 ht2 hph hf2
    rw [hlook i] at hck
    by_cases hi : i = ci
    · rw [if_pos hi] at hck
      rw [← Option.some.inj hck] at ht2 ⊢
      rcases List.mem_or_eq_of_mem_set ht2 with h2 | h2
      · exact h.fin_gate i c (hi ▸ hc) t2 h2 hph hf2
      · exact hg
    · rw [if_neg hi] at hck
      exact h.fin_gate i ck hck t2 ht2 hph hf2
  · intro i ck hck hret t2 ht2
    rw [hlook i] at hck
    by_cases hi : i = ci
    · rw [if_pos hi] at hck
      rw [← Option.some.inj hck] at hret ht2
      rcases List.mem_or_eq_of_mem_set ht2 with h2 | h2
      · exact h.ret_enc i c (hi ▸ hc) hret t2 h2
      · rw [h2]
        simp
    · rw [if_neg hi] at hck
      exact h.ret_enc i ck hck hret t2 ht2
  · intro e he
    rw [hwrites] at he
    simp only [pushWrite, updPhase, List.length_set]
    rcases List.mem_append.mp he with he1 | he1
    · exact h.w_lt e he1
    · have he2 : e = { sink := t.sink, call := ci, timestamp := c.timestamp } := by
        simpa using he1
      rw [he2]
      exact hlt
  · intro e he ck hck
    rw [hwrites] at he
    rw [hlook e.call] at hck
    rcases List.mem_append.mp he with he1 | he1
    · by_cases hi : e.call = ci
      · rw [if_pos hi] at hck
        rw [← Option.some.inj hck]
        exact h.w_ts e he1 c (hi ▸ hc)
      · rw [if_neg hi] at hck
        exact h.w_ts e he1 ck hck
    · have he2 : e = { sink := t.sink, call := ci, timestamp := c.timestamp } := by
        simpa using he1
      subst he2
      rw [if_pos rfl] at hck
      rw [← Option.some.inj hck]
  · intro e he
    rw [hwrites] at he
    rcases List.mem_append.mp he with he1 | he1
    · exact h.w_fired e he1
    · have he2 : e = { sink := t.sink, call := ci, timestamp := c.timestamp } := by
        simpa using he1
      subst he2
      show ci ∈ s.fired
      rw [← h.gate_eq ci c hc]
      exact hg
  · intro hg2
    have good : GoodCalls s :=
      goodCalls_updPhase s ci ti c t Phase.finished hc ht hg2
    rw [hwrites, List.pairwise_append]
    refine ⟨h.w_sorted good, by simp, ?_⟩
    intro e1 he1 e2 he2
    have he2e : e2 = { sink := t.sink, call := ci, timestamp := c.timestamp } := by
      simpa using he2
    subst he2e
    intro _
    show e1.call ≤ ci
    by_contra h3
    push_neg at h3
    have hin := h.w_fired e1 he1
    have hci1 : ci + 1 ∈ s.fired :=
      fired_down s.fired (h.closed good) e1.call hin (ci + 1) (by omega)
    have htokfin := h.fired_done ci c hc (by rw [h.token_eq ci c hc]; exact hci1) t
      (List.getElem?_mem ht)
    rw [hp] at htokfin
    exact absurd htokfin (by simp)
  · intro hg2 k hk
    exact h.closed (goodCalls_updPhase s ci ti c t Phase.finished hc ht hg2) k hk
  · intro i ck hck k
    rw [hlook i] at hck
    have hwsplit : wcount (pushWrite (updPhase s ci ti c t Phase.finished) ci c t) i k =
        wcount s i k + (List.filter (fun e : Entry => decide (e.call = i ∧ e.sink = k))
          [{ sink := t.sink, call := ci, timestamp := c.timestamp }]).length := by
      unfold wcount
      rw [hwrites, List.filter_append, List.length_append]
    by_cases hi : i = ci
    · subst hi
      rw [if_pos rfl] at hck
      rw [← Option.some.inj hck]
      have hqt : (fun t2 : EncodeTask =>
          decide (t2.sink = k ∧ t2.phase = Phase.finished ∧ t2.fails = false)) t = false := by
        rw [decide_eq_false_iff_not]
        rintro ⟨_, h2, _⟩
        rw [hp] at h2
        exact absurd h2 (by simp)
      have hlfs := length_filter_set
        (fun t2 : EncodeTask =>
          decide (t2.sink = k ∧ t2.phase = Phase.finished ∧ t2.fails = false))
        c.tasks ti t { t with phase := Phase.finished } ht hqt
      unfold tcount
      rw [hlfs, hwsplit]
      have hcc := h.counts i c hc k
      unfold tcount at hcc
      rw [hcc]
      by_cases hsk : t.sink = k
      · simp [hsk, hf]
      · simp [hsk]
    · rw [if_neg hi] at hck
      rw [hwsplit]
      have hz : (List.filter (fun e : Entry => decide (e.call = i ∧ e.sink = k))
          [{ sink := t.sink, call := ci, timestamp := c.timestamp }]).length = 0 := by
        have : ¬ (ci = i ∧ t.sink = k) := by
          rintro ⟨h4, _⟩
          exact hi h4.symm
        simp [List.filter, this]
      rw [hz]
      simpa using h.counts i ck hck k

theorem inv_init : EngineInv initState := by
  refine ⟨rfl, ?_, ?_, ?_, ?_, ?_, ?_, ?_, ?_, ?_, ?_, ?_, ?_, ?_, ?_, ?_⟩
  · intro i c hc
    simp [initState] at hc
  · intro i c hc
    simp [initState] at hc
  · intro i c hc
    simp [initState] at hc
  · intro i j ci cj hij hci hcj
    simp [initState] at hci
  · show 0 ∈ [0]
    simp
  · intro k hk
    have : k = 0 := by simpa [initState] using hk
    simp [initState, this]
  · intro i c hc
    simp [initState] at hc
  · intro i c hc
    simp [initState] at hc
  · intro i c hc
    simp [initState] at hc
  · intro e he
    simp [initState] at he
  · intro e he
    simp [initState] at he
  · intro e he
    simp [initState] at he
  · intro _
    show List.Pairwise _ ([] : List Entry)
    simp
  · intro _ k hk
    have : k + 1 = 0 := by simpa [initState] using hk
    omega
  · intro i c hc
    simp [initState] at hc

theorem inv_step (s s2 : MillState) (l : Label) (hst : Step s l s2) (h : EngineInv s) :
    EngineInv s2 := by
  cases hst with
  | logNop ctx fl hnil => exact h
  | logStart ctx ls fl hls hlen => exact inv_startCall s ls fl h
  | encode ci ti c t hc ht hp => exact inv_updPhase_encode s ci ti c t hc ht hp h
  | skip ci ti c t hc ht hp hf => exact inv_updPhase_skip s ci ti c t hc ht hp hf h
  | write ci ti c t hc ht hp hf hg => exact inv_write_step s ci ti c t hc ht hp hf hg h
  | fire ci c hc hfin hnf => exact inv_addFired s ci c hc hfin h
  | ret ci c hc henc hr => exact inv_setReturned s ci c hc henc h
  | tick d => exact inv_tick s d h

theorem inv_reachable (s : MillState) (h : Reachable s) : EngineInv s := by
  induction h with
  | init => exact inv_init
  | step s s2 l hr hst ih => exact inv_step s s2 l hst ih

/-! ## Engine claims: C1, C2, C3, C5 -/

theorem count_map_call (l : List Entry) (i : Nat) :
    (l.map (fun e => e.call)).count i =
      (l.filter (fun e => decide (e.call = i))).length := by
  induction l with
  | nil => rfl
  | cons a l ih =>
    rw [List.map_cons, List.count_cons, List.filter_cons]
    by_cases h : a.call = i
    · simp [h, ih]
    · simp [h, ih]

theorem count_range_eq (n i : Nat) : (List.range n).count i = if i < n then 1 else 0 := by
  by_cases h : i < n
  · rw [if_pos h]
    exact List.count_eq_one_of_mem (List.nodup_range n) (List.mem_range.mpr h)
  · rw [if_neg h]
    exact List.count_eq_zero_of_not_mem (by simpa using h)

/-- C2: in any reachable state in which every issued Log call has exactly
one codec on sink k and no codec's encode failed, once the pending token
has fired (i.e. once Sync has returned), sink k holds exactly one entry
per Log call, in token-swap (call-start) order: the sequence of call
indices on the sink is exactly 0, 1, ..., N-1.  The timestamps of those
entries are non-decreasing, and their renderings through the TimeFormat
layout (for any fixed zone suffix) are lexicographically non-decreasing
under byte-wise comparison.  The codecs of different calls may belong to
one context or to several independent contexts: only the shared sink and
the process-wide token chain matter. -/
theorem C2_ordered_writes (s : MillState) (k : Nat) (zone : List Nat)
    (hr : Reachable s)
    (hone : ∀ c ∈ s.calls, (c.tasks.filter (fun t => decide (t.sink = k))).length = 1)
    (hok : ∀ c ∈ s.calls, ∀ t ∈ c.tasks, t.fails = false)
    (hsync : syncDone s)
    (hbound : s.now < 10 ^ 20) :
    (entriesFor s k).map (fun e => e.call) = List.range s.calls.length ∧
    List.Pairwise (fun a b => a ≤ b) ((entriesFor s k).map (fun e => e.timestamp)) ∧
    List.Pairwise (fun a b => bytesCompare (renderKey a zone) (renderKey b zone) ≠ Ordering.gt)
      ((entriesFor s k).map (fun e => e.timestamp)) := by
  have hinv := inv_reachable s hr
  have good : GoodCalls s := by
    intro i c hc
    have hmem : c ∈ s.calls := List.getElem?_mem hc
    have h1 := hone c hmem
    obtain ⟨t, htmem⟩ : ∃ t, t ∈ c.tasks.filter (fun t => decide (t.sink = k)) := by
      cases hfl : c.tasks.filter (fun t => decide (t.sink = k)) with
      | nil => rw [hfl] at h1; simp at h1
      | cons a l => exact ⟨a, hfl ▸ List.mem_cons_self a l⟩
    exact ⟨t, List.mem_of_mem_filter htmem,
      hok c hmem t (List.mem_of_mem_filter htmem)⟩
  have hn := hinv.pend
  have hallfin : ∀ (i : Nat) (c : Call), s.calls[i]? = some c →
      ∀ t ∈ c.tasks, t.phase = Phase.finished := by
    intro i c hc
    have hlt : i < s.calls.length := lt_length_of_getElem? hc
    have htok : c.token = i + 1 := hinv.token_eq i c hc
    have hfir : i + 1 ∈ s.fired :=
      fired_down s.fired (hinv.closed good) s.pending hsync (i + 1) (by omega)
    exact hinv.fired_done i c hc (htok ▸ hfir)
  have hcount1 : ∀ (i : Nat) (c : Call), s.calls[i]? = some c → wcount s i k = 1 := by
    intro i c hc
    rw [hinv.counts i c hc k]
    unfold tcount
    have hcg : List.filter (fun t : EncodeTask =>
        decide (t.sink = k ∧ t.phase = Phase.finished ∧ t.fails = false)) c.tasks =
        List.filter (fun t : EncodeTask => decide (t.sink = k)) c.tasks := by
      apply List.filter_congr
      intro t htm
      have hfin := hallfin i c hc t htm
      have hf := hok c (List.getElem?_mem hc) t htm
      simp [hfin, hf]
    rw [hcg]
    exact hone c (List.getElem?_mem hc)
  have hcount0 : ∀ i : Nat, s.calls.length ≤ i → wcount s i k = 0 := by
    intro i hi
    unfold wcount
    rw [filter_nil_of_false _ _ ?_]
    · rfl
    · intro e he
      rw [decide_eq_false_iff_not]
      rintro ⟨h1, _⟩
      have := hinv.w_lt e he
      omega
  have hsinkE : ∀ e ∈ entriesFor s k, e.sink = k := by
    intro e he
    have := (List.mem_filter.mp he).2
    exact of_decide_eq_true this
  have hmemW : ∀ e ∈ entriesFor s k, e ∈ s.writes := by
    intro e he
    exact List.mem_of_mem_filter he
  have hsortedE : (entriesFor s k).Pairwise (fun e1 e2 => e1.call ≤ e2.call) := by
    have hpw : (entriesFor s k).Pairwise
        (fun e1 e2 => e1.sink = e2.sink → e1.call ≤ e2.call) :=
      List.Pairwise.sublist (List.filter_sublist s.writes) (hinv.w_sorted good)
    refine List.Pairwise.imp_of_mem ?_ hpw
    intro e1 e2 h1 h2 hr2
    exact hr2 ((hsinkE e1 h1).trans (hsinkE e2 h2).symm)
  have htsc : ∀ e ∈ entriesFor s k, ∀ e2 ∈ entriesFor s k, e.call ≤ e2.call →
      e.timestamp ≤ e2.timestamp := by
    intro e1 h1 e2 h2 hcall
    have he1w := hmemW e1 h1
    have he2w := hmemW e2 h2
    have hl1 : e1.call < s.calls.length := hinv.w_lt e1 he1w
    have hl2 : e2.call < s.calls.length := hinv.w_lt e2 he2w
    have hc1 : s.calls[e1.call]? = some (s.calls[e1.call]) := List.getElem?_eq_getElem hl1
    have hc2 : s.calls[e2.call]? = some (s.calls[e2.call]) := List.getElem?_eq_getElem hl2
    rw [hinv.w_ts e1 he1w _ hc1, hinv.w_ts e2 he2w _ hc2]
    exact hinv.ts_mono e1.call e2.call _ _ hcall hc1 hc2
  have hbnd : ∀ e ∈ entriesFor s k, e.timestamp < 10 ^ 20 := by
    intro e he
    have hew := hmemW e he
    have hl : e.call < s.calls.length := hinv.w_lt e hew
    have hc : s.calls[e.call]? = some (s.calls[e.call]) := List.getElem?_eq_getElem hl
    rw [hinv.w_ts e hew _ hc]
    have := hinv.ts_now e.call _ hc
    omega
  refine ⟨?_, ?_, ?_⟩
  · have hperm : ((entriesFor s k).map (fun e => e.call)).Perm
        (List.range s.calls.length) := by
      rw [List.perm_iff_count]
      intro a
      rw [count_map_call, count_range_eq]
      show ((entriesFor s k).filter (fun e => decide (e.call = a))).length = _
      unfold entriesFor
      rw [List.filter_filter]
      have hcg : (s.writes.filter (fun e =>
          decide (e.call = a) && decide (e.sink = k))) =
          (s.writes.filter (fun e => decide (e.call = a ∧ e.sink = k))) := by
        apply List.filter_congr
        intro e _
        by_cases h1 : e.call = a <;> by_cases h2 : e.sink = k <;> simp [h1, h2]
      rw [hcg]
      show wcount s a k = _
      by_cases hlt : a < s.calls.length
      · rw [if_pos hlt]
        exact hcount1 a (s.calls[a]) (List.getElem?_eq_getElem hlt)
      · rw [if_neg hlt]
        exact hcount0 a (by omega)
    have hsorted : List.Sorted (fun a b : Nat => a ≤ b)
        ((entriesFor s k).map (fun e => e.call)) :=
      List.pairwise_map.mpr hsortedE
    exact List.eq_of_perm_of_sorted hperm hsorted (List.sorted_le_range _)
  · rw [List.pairwise_map]
    refine List.Pairwise.imp_of_mem ?_ hsortedE
    intro e1 e2 h1 h2 hcall
    exact htsc e1 h1 e2 h2 hcall
  · rw [List.pairwise_map]
    refine List.Pairwise.imp_of_mem ?_ hsortedE
    intro e1 e2 h1 h2 hcall
    exact renderKey_mono e1.timestamp e2.timestamp zone (hbnd e1 h1) (hbnd e2 h2)
      (htsc e1 h1 e2 h2 hcall)

theorem sW1_reachable : Reachable sW1 := by
  have h0 : Reachable initState := Reachable.init
  have h1 : Reachable { pending := 1, fired := [0], now := 0, calls := [{ timestamp := 0, gate := 0, token := 1, tasks := [{ sink := 0, fails := false, phase := Phase.start }], returned := false }], writes := [] } :=
    Reachable.step _ _ _ h0 (Step.logStart initState ctx1 [cdc0] [false] rfl rfl)
  have h2 : Reachable { pending := 1, fired := [0], now := 0, calls := [{ timestamp := 0, gate := 0, token := 1, tasks := [{ sink := 0, fails := false, phase := Phase.encoded }], returned := false }], writes := [] } :=
    Reachable.step _ _ _ h1 (Step.encode _ 0 0 { timestamp := 0, gate := 0, token := 1, tasks := [{ sink := 0, fails := false, phase := Phase.start }], returned := false } { sink := 0, fails := false, phase := Phase.start } rfl rfl rfl)
  exact Reachable.step _ _ _ h2 (Step.ret _ 0 { timestamp := 0, gate := 0, token := 1, tasks := [{ sink := 0, fails := false, phase := Phase.encoded }], returned := false } rfl (by decide) rfl)

theorem sW2_reachable : Reachable sW2 := by
  have h0 : Reachable initState := Reachable.init
  have h1 : Reachable { pending := 1, fired := [0], now := 0, calls := [{ timestamp := 0, gate := 0, token := 1, tasks := [{ sink := 0, fails := false, phase := Phase.start }], returned := false }], writes := [] } :=
    Reachable.step _ _ _ h0 (Step.logStart initState ctx1 [cdc0] [false] rfl rfl)
  have h2 : Reachable { pending := 1, fired := [0], now := 0, calls := [{ timestamp := 0, gate := 0, token := 1, tasks := [{ sink := 0, fails := false, phase := Phase.encoded }], returned := false }], writes := [] } :=
    Reachable.step _ _ _ h1 (Step.encode _ 0 0 { timestamp := 0, gate := 0, token := 1, tasks := [{ sink := 0, fails := false, phase := Phase.start }], returned := false } { sink := 0, fails := false, phase := Phase.start } rfl rfl rfl)
  have h3 : Reachable { pending := 1, fired := [0], now := 0, calls := [{ timestamp := 0, gate := 0, token := 1, tasks := [{ sink := 0, fails := false, phase := Phase.finished }], returned := false }], writes := [{ sink := 0, call := 0, timestamp := 0 }] } :=
    Reachable.step _ _ _ h2 (Step.write _ 0 0 { timestamp := 0, gate := 0, token := 1, tasks := [{ sink := 0, fails := false, phase := Phase.encoded }], returned := false } { sink := 0, fails := false, phase := Phase.encoded } rfl rfl rfl rfl (by decide))
  exact Reachable.step _ _ _ h3 (Step.fire _ 0 { timestamp := 0, gate := 0, token := 1, tasks := [{ sink := 0, fails := false, phase := Phase.finished }], returned := false } rfl (by decide) (by decide))

theorem sW3_reachable : Reachable sW3 := by
  have h0 : Reachable initState := Reachable.init
  have h1 : Reachable { pending := 1, fired := [0], now := 0, calls := [{ timestamp := 0, gate := 0, token := 1, tasks := [{ sink := 0, fails := false, phase := Phase.start }], returned := false }], writes := [] } :=
    Reachable.step _ _ _ h0 (Step.logStart initState ctx1 [cdc0] [false] rfl rfl)
  have h2 : Reachable { pending := 1, fired := [0], now := 5, calls := [{ timestamp := 0, gate := 0, token := 1, tasks := [{ sink := 0, fails := false, phase := Phase.start }], returned := false }], writes := [] } :=
    Reachable.step _ _ _ h1 (Step.tick _ 5)
  exact Reachable.step _ _ _ h2 (Step.logStart _ ctx1 [cdc0] [false] rfl rfl)

theorem s9_reachable : Reachable s9 := by
  have h0 : Reachable initState := Reachable.init
  have h1 : Reachable { pending := 1, fired := [0], now := 0, calls := [{ timestamp := 0, gate := 0, token := 1, tasks := [{ sink := 0, fails := false, phase := Phase.start }], returned := false }], writes := [] } :=
    Reachable.step _ _ _ h0 (Step.logStart initState ctx1 [cdc0] [false] rfl rfl)
  have h2 : Reachable { pending := 1, fired := [0], now := 0, calls := [{ timestamp := 0, gate := 0, token := 1, tasks := [{ sink := 0, fails := false, phase := Phase.encoded }], returned := false }], writes := [] } :=
    Reachable.step _ _ _ h1 (Step.encode _ 0 0 { timestamp := 0, gate := 0, token := 1, tasks := [{ sink := 0, fails := false, phase := Phase.start }], returned := false } { sink := 0, fails := false, phase := Phase.start } rfl rfl rfl)
  have h3 : Reachable { pending := 1, fired := [0], now := 0, calls := [{ timestamp := 0, gate := 0, token := 1, tasks := [{ sink := 0, fails := false, phase := Phase.encoded }], returned := true }], writes := [] } :=
    Reachable.step _ _ _ h2 (Step.ret _ 0 { timestamp := 0, gate := 0, token := 1, tasks := [{ sink := 0, fails := false, phase := Phase.encoded }], returned := false } rfl (by decide) rfl)
  have h4 : Reachable { pending := 2, fired := [0], now := 0, calls := [{ timestamp := 0, gate := 0, token := 1, tasks := [{ sink := 0, fails := false, phase := Phase.encoded }], returned := true }, { timestamp := 0, gate := 1, token := 2, tasks := [{ sink := 0, fails := true, phase := Phase.start }], returned := false }], writes := [] } :=
    Reachable.step _ _ _ h3 (Step.logStart _ ctx1 [cdc0] [true] rfl rfl)
  have h5 : Reachable { pending := 2, fired := [0], now := 0, calls := [{ timestamp := 0, gate := 0, token := 1, tasks := [{ sink := 0, fails := false, phase := Phase.encoded }], returned := true }, { timestamp := 0, gate := 1, token := 2, tasks := [{ sink := 0, fails := true, phase := Phase.encoded }], returned := false }], writes := [] } :=
    Reachable.step _ _ _ h4 (Step.encode _ 1 0 { timestamp := 0, gate := 1, token := 2, tasks := [{ sink := 0, fails := true, phase := Phase.start }], returned := false } { sink := 0, fails := true, phase := Phase.start } rfl rfl rfl)
  have h6 : Reachable { pending := 2, fired := [0], now := 0, calls := [{ timestamp := 0, gate := 0, token := 1, tasks := [{ sink := 0, fails := false, phase := Phase.encoded }], returned := true }, { timestamp := 0, gate := 1, token := 2, tasks := [{ sink := 0, fails := true, phase := Phase.encoded }], returned := true }], writes := [] } :=
    Reachable.step _ _ _ h5 (Step.ret _ 1 { timestamp := 0, gate := 1, token := 2, tasks := [{ sink := 0, fails := true, phase := Phase.encoded }], returned := false } rfl (by decide) rfl)
  have h7 : Reachable { pending := 2, fired := [0], now := 0, calls := [{ timestamp := 0, gate := 0, token := 1, tasks := [{ sink := 0, fails := false, phase := Phase.encoded }], returned := true }, { timestamp := 0, gate := 1, token := 2, tasks := [{ sink := 0, fails := true, phase := Phase.finished }], returned := true }], writes := [] } :=
    Reachable.step _ _ _ h6 (Step.skip _ 1 0 { timestamp := 0, gate := 1, token := 2, tasks := [{ sink := 0, fails := true, phase := Phase.encoded }], returned := true } { sink := 0, fails := true, phase := Phase.encoded } rfl rfl rfl rfl)
  have h8 : Reachable { pending := 2, fired := [0, 2], now := 0, calls := [{ timestamp := 0, gate := 0, token := 1, tasks := [{ sink := 0, fails := false, phase := Phase.encoded }], returned := true }, { timestamp := 0, gate := 1, token := 2, tasks := [{ sink := 0, fails := true, phase := Phase.finished }], returned := true }], writes := [] } :=
    Reachable.step _ _ _ h7 (Step.fire _ 1 { timestamp := 0, gate := 1, token := 2, tasks := [{ sink := 0, fails := true, phase := Phase.finished }], returned := true } rfl (by decide) (by decide))
  have h9 : Reachable { pending := 3, fired := [0, 2], now := 0, calls := [{ timestamp := 0, gate := 0, token := 1, tasks := [{ sink := 0, fails := false, phase := Phase.encoded }], returned := true }, { timestamp := 0, gate := 1, token := 2, tasks := [{ sink := 0, fails := true, phase := Phase.finished }], returned := true }, { timestamp := 0, gate := 2, token := 3, tasks := [{ sink := 0, fails := false, phase := Phase.start }], returned := false }], writes := [] } :=
    Reachable.step _ _ _ h8 (Step.logStart _ ctx1 [cdc0] [false] rfl rfl)
  have h10 : Reachable { pending := 3, fired := [0, 2], now := 0, calls := [{ timestamp := 0, gate := 0, token := 1, tasks := [{ sink := 0, fails := false, phase := Phase.encoded }], returned := true }, { timestamp := 0, gate := 1, token := 2, tasks := [{ sink := 0, fails := true, phase := Phase.finished }], returned := true }, { timestamp := 0, gate := 2, token := 3, tasks := [{ sink := 0, fails := false, phase := Phase.encoded }], returned := false }], writes := [] } :=
    Reachable.step _ _ _ h9 (Step.encode _ 2 0 { timestamp := 0, gate := 2, token := 3, tasks := [{ sink := 0, fails := false, phase := Phase.start }], returned := false } { sink := 0, fails := false, phase := Phase.start } rfl rfl rfl)
  have h11 : Reachable { pending := 3, fired := [0, 2], now := 0, calls := [{ timestamp := 0, gate := 0, token := 1, tasks := [{ sink := 0, fails := false, phase := Phase.encoded }], returned := true }, { timestamp := 0, gate := 1, token := 2, tasks := [{ sink := 0, fails := true, phase := Phase.finished }], returned := true }, { timestamp := 0, gate := 2, token := 3, tasks := [{ sink := 0, fails := false, phase := Phase.encoded }], returned := true }], writes := [] } :=
    Reachable.step _ _ _ h10 (Step.ret _ 2 { timestamp := 0, gate := 2, token := 3, tasks := [{ sink := 0, fails := false, phase := Phase.encoded }], returned := false } rfl (by decide) rfl)
  have h12 : Reachable { pending := 3, fired := [0, 2], now := 0, calls := [{ timestamp := 0, gate := 0, token := 1, tasks := [{ sink := 0, fails := false, phase := Phase.encoded }], returned := true }, { timestamp := 0, gate := 1, token := 2, tasks := [{ sink := 0, fails := true, phase := Phase.finished }], returned := true }, { timestamp := 0, gate := 2, token := 3, tasks := [{ sink := 0, fails := false, phase := Phase.finished }], returned := true }], writes := [{ sink := 0, call := 2, timestamp := 0 }] } :=
    Reachable.step _ _ _ h11 (Step.write _ 2 0 { timestamp := 0, gate := 2, token := 3, tasks := [{ sink := 0, fails := false, phase := Phase.encoded }], returned := true } { sink := 0, fails := false, phase := Phase.encoded } rfl rfl rfl rfl (by decide))
  have h13 : Reachable { pending := 3, fired := [0, 2], now := 0, calls := [{ timestamp := 0, gate := 0, token := 1, tasks := [{ sink := 0, fails := false, phase := Phase.finished }], returned := true }, { timestamp := 0, gate := 1, token := 2, tasks := [{ sink := 0, fails := true, phase := Phase.finished }], returned := true }, { timestamp := 0, gate := 2, token := 3, tasks := [{ sink := 0, fails := false, phase := Phase.finished }], returned := true }], writes := [{ sink := 0, call := 2, timestamp := 0 }, { sink := 0, call := 0, timestamp := 0 }] } :=
    Reachable.step _ _ _ h12 (Step.write _ 0 0 { timestamp := 0, gate := 0, token := 1, tasks := [{ sink := 0, fails := false, phase := Phase.encoded }], returned := true } { sink := 0, fails := false, phase := Phase.encoded } rfl rfl rfl rfl (by decide))
  have h14 : Reachable { pending := 3, fired := [0, 2, 1], now := 0, calls := [{ timestamp := 0, gate := 0, token := 1, tasks := [{ sink := 0, fails := false, phase := Phase.finished }], returned := true }, { timestamp := 0, gate := 1, token := 2, tasks := [{ sink := 0, fails := true, phase := Phase.finished }], returned := true }, { timestamp := 0, gate := 2, token := 3, tasks := [{ sink := 0, fails := false, phase := Phase.finished }], returned := true }], writes := [{ sink := 0, call := 2, timestamp := 0 }, { sink := 0, call := 0, timestamp := 0 }] } :=
    Reachable.step _ _ _ h13 (Step.fire _ 0 { timestamp := 0, gate := 0, token := 1, tasks := [{ sink := 0, fails := false, phase := Phase.finished }], returned := true } rfl (by decide) (by decide))
  exact Reachable.step _ _ _ h14 (Step.fire _ 2 { timestamp := 0, gate := 2, token := 3, tasks := [{ sink := 0, fails := false, phase := Phase.finished }], returned := true } rfl (by decide) (by decide))

theorem sA_reachable : Reachable sA := by
  have h0 : Reachable initState := Reachable.init
  have h1 : Reachable { pending := 1, fired := [0], now := 0, calls := [{ timestamp := 0, gate := 0, token := 1, tasks := [{ sink := 0, fails := true, phase := Phase.start }], returned := false }], writes := [] } :=
    Reachable.step _ _ _ h0 (Step.logStart initState ctx1 [cdc0] [true] rfl rfl)
  have h2 : Reachable { pending := 1, fired := [0], now := 0, calls := [{ timestamp := 0, gate := 0, token := 1, tasks := [{ sink := 0, fails := true, phase := Phase.encoded }], returned := false }], writes := [] } :=
    Reachable.step _ _ _ h1 (Step.encode _ 0 0 { timestamp := 0, gate := 0, token := 1, tasks := [{ sink := 0, fails := true, phase := Phase.start }], returned := false } { sink := 0, fails := true, phase := Phase.start } rfl rfl rfl)
  have h3 : Reachable { pending := 1, fired := [0], now := 0, calls := [{ timestamp := 0, gate := 0, token := 1, tasks := [{ sink := 0, fails := true, phase := Phase.encoded }], returned := true }], writes := [] } :=
    Reachable.step _ _ _ h2 (Step.ret _ 0 { timestamp := 0, gate := 0, token := 1, tasks := [{ sink := 0, fails := true, phase := Phase.encoded }], returned := false } rfl (by decide) rfl)
  have h4 : Reachable { pending := 1, fired := [0], now := 0, calls := [{ timestamp := 0, gate := 0, token := 1, tasks := [{ sink := 0, fails := true, phase := Phase.finished }], returned := true }], writes := [] } :=
    Reachable.step _ _ _ h3 (Step.skip _ 0 0 { timestamp := 0, gate := 0, token := 1, tasks := [{ sink := 0, fails := true, phase := Phase.encoded }], returned := true } { sink := 0, fails := true, phase := Phase.encoded } rfl rfl rfl rfl)
  have h5 : Reachable { pending := 1, fired := [0, 1], now := 0, calls := [{ timestamp := 0, gate := 0, token := 1, tasks := [{ sink := 0, fails := true, phase := Phase.finished }], returned := true }], writes := [] } :=
    Reachable.step _ _ _ h4 (Step.fire _ 0 { timestamp := 0, gate := 0, token := 1, tasks := [{ sink := 0, fails := true, phase := Phase.finished }], returned := true } rfl (by decide) (by decide))
  have h6 : Reachable { pending := 2, fired := [0, 1], now := 0, calls := [{ timestamp := 0, gate := 0, token := 1, tasks := [{ sink := 0, fails := true, phase := Phase.finished }], returned := true }, { timestamp := 0, gate := 1, token := 2, tasks := [{ sink := 0, fails := false, phase := Phase.start }], returned := false }], writes := [] } :=
    Reachable.step _ _ _ h5 (Step.logStart _ ctx1 [cdc0] [false] rfl rfl)
  have h7 : Reachable { pending := 2, fired := [0, 1], now := 0, calls := [{ timestamp := 0, gate := 0, token := 1, tasks := [{ sink := 0, fails := true, phase := Phase.finished }], returned := true }, { timestamp := 0, gate := 1, token := 2, tasks := [{ sink := 0, fails := false, phase := Phase.encoded }], returned := false }], writes := [] } :=
    Reachable.step _ _ _ h6 (Step.encode _ 1 0 { timestamp := 0, gate := 1, token := 2, tasks := [{ sink := 0, fails := false, phase := Phase.start }], returned := false } { sink := 0, fails := false, phase := Phase.start } rfl rfl rfl)
  have h8 : Reachable { pending := 2, fired := [0, 1], now := 0, calls := [{ timestamp := 0, gate := 0, token := 1, tasks := [{ sink := 0, fails := true, phase := Phase.finished }], returned := true }, { timestamp := 0, gate := 1, token := 2, tasks := [{ sink := 0, fails := false, phase := Phase.encoded }], returned := true }], writes := [] } :=
    Reachable.step _ _ _ h7 (Step.ret _ 1 { timestamp := 0, gate := 1, token := 2, tasks := [{ sink := 0, fails := false, phase := Phase.encoded }], returned := false } rfl (by decide) rfl)
  have h9 : Reachable { pending := 2, fired := [0, 1], now := 0, calls := [{ timestamp := 0, gate := 0, token := 1, tasks := [{ sink := 0, fails := true, phase := Phase.finished }], returned := true }, { timestamp := 0, gate := 1, token := 2, tasks := [{ sink := 0, fails := false, phase := Phase.finished }], returned := true }], writes := [{ sink := 0, call := 1, timestamp := 0 }] } :=
    Reachable.step _ _ _ h8 (Step.write _ 1 0 { timestamp := 0, gate := 1, token := 2, tasks := [{ sink := 0, fails := false, phase := Phase.encoded }], returned := true } { sink := 0, fails := false, phase := Phase.encoded } rfl rfl rfl rfl (by decide))
  exact Reachable.step _ _ _ h9 (Step.fire _ 1 { timestamp := 0, gate := 1, token := 2, tasks := [{ sink := 0, fails := false, phase := Phase.finished }], returned := true } rfl (by decide) (by decide))

/-- C1: Log with at least one attached codec returns only after every
codec task has signalled encodeDone: in any reachable state a returned
call has no task still in the reading phase (first conjunct, first
component), and once the call has returned no further encode step — the
only step that reads the caller-supplied data — is possible for it
(second component).  Log does not wait for writes: a state is reachable
in which the call has returned while its codec has encoded but not yet
written, so the caller regains control before the write happens (second
conjunct). -/
theorem C1_encode_before_return :
    (∀ s : MillState, Reachable s → ∀ (i : Nat) (c : Call), s.calls[i]? = some c →
      c.returned = true →
      (∀ t ∈ c.tasks, t.phase ≠ Phase.start) ∧
      ∀ (ti : Nat) (s2 : MillState), ¬ Step s (Label.encode i ti) s2) ∧
    (∃ s : MillState, Reachable s ∧ ∃ c : Call, s.calls[0]? = some c ∧ c.returned = true ∧
      ∃ t ∈ c.tasks, t.phase = Phase.encoded) := by
  constructor
  · intro s hr i c hc hret
    have hinv := inv_reachable s hr
    refine ⟨hinv.ret_enc i c hc hret, ?_⟩
    intro ti s2 hstep
    cases hstep with
    | encode _ _ c2 t2 hc2 ht2 hp2 =>
      have hcc : c2 = c := by
        rw [hc] at hc2
        exact (Option.some.inj hc2).symm
      subst hcc
      exact absurd hp2 (hinv.ret_enc i c2 hc hret t2 (List.getElem?_mem ht2))
  · refine ⟨sW1, sW1_reachable,
      { timestamp := 0, gate := 0, token := 1,
        tasks := [{ sink := 0, fails := false, phase := Phase.encoded }], returned := true },
      rfl, rfl, { sink := 0, fails := false, phase := Phase.encoded }, by simp, rfl⟩

theorem C1_encode_before_return_witness :
    (∀ t ∈ ([{ sink := 0, fails := false, phase := Phase.encoded }] : List EncodeTask),
      t.phase ≠ Phase.start) ∧
    ∀ (ti : Nat) (s2 : MillState), ¬ Step sW1 (Label.encode 0 ti) s2 :=
  C1_encode_before_return.1 sW1 sW1_reachable 0
    { timestamp := 0, gate := 0, token := 1,
      tasks := [{ sink := 0, fails := false, phase := Phase.encoded }], returned := true }
    rfl rfl

/-- C3: the timestamp is captured inside the same globalLogSyncer
critical section that swaps the ordering tokens (the logStart step is
atomic and reads the clock there, mirroring the time.Now() call placed
before the mutex unlock), so a call whose token swap happens later — a
larger index in the token-swap order — can never carry a smaller
timestamp than an earlier call. -/
theorem C3_swap_order_timestamps (s : MillState) (hr : Reachable s) (i j : Nat)
    (ci cj : Call) (hij : i < j) (hci : s.calls[i]? = some ci)
    (hcj : s.calls[j]? = some cj) : ci.timestamp ≤ cj.timestamp :=
  (inv_reachable s hr).ts_mono i j ci cj (Nat.le_of_lt hij) hci hcj

theorem C3_swap_order_timestamps_witness : (0 : Nat) ≤ 5 :=
  C3_swap_order_timestamps sW3 sW3_reachable 0 1
    { timestamp := 0, gate := 0, token := 1,
      tasks := [{ sink := 0, fails := false, phase := Phase.start }], returned := false }
    { timestamp := 5, gate := 1, token := 2,
      tasks := [{ sink := 0, fails := false, phase := Phase.start }], returned := false }
    (by decide) rfl rfl

/-- C5: a Log call on a context with no attached codecs (a nil logger
value) leaves the state untouched: no timestamp read, no token created
or swapped, no task spawned, no write, no change to the global ordering
state — the step relation forces the post-state to equal the pre-state. -/
theorem C5_no_codec_fast_path (s s2 : MillState) (ctx : Ctx) (fl : List Bool)
    (hnil : loggersOf ctx = none) (hstep : Step s (Label.log ctx fl) s2) : s2 = s := by
  cases hstep with
  | logNop _ _ _ => rfl
  | logStart _ _ ls hls hlen =>
    rw [hnil] at hls
    exact absurd hls (by simp)

theorem C5_no_codec_fast_path_witness :
    Step initState (Label.log Ctx.background []) initState ∧ initState = initState :=
  ⟨Step.logNop initState Ctx.background [] rfl,
   C5_no_codec_fast_path initState initState Ctx.background [] rfl
     (Step.logNop initState Ctx.background [] rfl)⟩

theorem C2_ordered_writes_witness :
    (entriesFor sW2 0).map (fun e => e.call) = List.range sW2.calls.length ∧
    List.Pairwise (fun a b => a ≤ b) ((entriesFor sW2 0).map (fun e => e.timestamp)) ∧
    List.Pairwise (fun a b => bytesCompare (renderKey a []) (renderKey b []) ≠ Ordering.gt)
      ((entriesFor sW2 0).map (fun e => e.timestamp)) :=
  C2_ordered_writes sW2 0 [] sW2_reachable (by decide) (by decide)
    (by decide : sW2.pending ∈ sW2.fired) (by decide)

/-- C9, counterexample to the claim as stated: the concrete reachable
trace behind s9 has call 0 (one healthy codec, slow write), call 1 (a
single JSON codec whose marshal fails: it signals encodeDone and skips
both writeReady and the write), and call 2 (healthy).  Because every
codec of call 1 failed, call 1's watcher closes its token without ever
waiting for call 0's token, so call 2's write is gated only on the
already-fired token 2 and lands on sink 0 before call 0's write.  After
all tokens have fired (Sync has returned), sink 0 holds the calls in
order 2, 0 — not call-start order — refuting the claim that a failed
encode never breaks the write-ordering chain for subsequent calls. -/
theorem C9_failed_encode_counterexample :
    Reachable s9 ∧ syncDone s9 ∧
    s9.calls[1]? = some { timestamp := 0, gate := 1, token := 2, tasks := [{ sink := 0, fails := true, phase := Phase.finished }], returned := true } ∧
    (entriesFor s9 0).map (fun e => e.call) = [2, 0] ∧
    ¬ List.Pairwise (fun a b : Nat => a ≤ b) [2, 0] := by
  refine ⟨s9_reachable, ?_, rfl, rfl, ?_⟩
  · show s9.pending ∈ s9.fired
    decide
  · intro h
    have := (List.pairwise_cons.mp h).1 0 (by simp)
    omega

/-- C9, amended: when the JSON codec's serialization fails, the codec
still calls its completion signal exactly once — before the error check,
as in the success case — and then returns without awaiting writeReady
and without writing (first three conjuncts).  The failure neither
prevents Log from returning nor stalls the token chain: in the concrete
trace behind sA, the failing call returns, writes nothing, its token
fires, the next call's write lands normally and Sync returns.  However,
the claim's further assertion that the ordering chain is never broken
does not hold: if every codec of a call fails to encode, that call's
token fires without waiting for its predecessor, and a later call's
write may overtake an earlier in-flight call's write (see the
counterexample). -/
theorem C9_failed_encode_amended :
    jsonEncodeLogEntry true = [CodecEvent.encodeDone] ∧
    (jsonEncodeLogEntry true).count CodecEvent.encodeDone = 1 ∧
    (jsonEncodeLogEntry true).count CodecEvent.write = 0 ∧
    jsonEncodeLogEntry false =
      [CodecEvent.encodeDone, CodecEvent.awaitWriteReady, CodecEvent.write] ∧
    Reachable sA ∧ syncDone sA ∧
    sA.calls[0]? = some { timestamp := 0, gate := 0, token := 1, tasks := [{ sink := 0, fails := true, phase := Phase.finished }], returned := true } ∧
    (entriesFor sA 0).map (fun e => e.call) = [1] := by
  refine ⟨rfl, by decide, by decide, rfl, sA_reachable, ?_, rfl, rfl⟩
  show sA.pending ∈ sA.fired
  decide
